import Mathlib

/-!
# ec2-snapper: volume snapshot creation and pruning

A shallow embedding of `create_volume_snapshot_command.go` and
`delete_volume_snapshot_command.go`.

* The EC2 client is a deterministic provider: each of its three operations
  answers from the list of provider calls issued so far and the request.
* A run threads a `Run` record through the code: the provider calls issued
  and the lines printed through `cli.Ui`, both in order.
* Go `error` values are their message (`err.Error()`); a `nil` error is `none`.
* `time.Time` is a count of nanoseconds, `time.Duration` an int64 count of
  nanoseconds. The delete path takes the type of hour counts and the
  conversion `Hours` as parameters; `durationHours` is `Duration.Hours` on
  float64, a finite float64 being the rational it denotes and every float64
  operation the exact result rounded to nearest, ties to even.
* `parseOlderThanToHours` is defined outside these two files and is passed in
  as a parameter; the examples use a small parser modelled from the spec.
* The wait loop of `createVolumeSnapshot` has no exit but `completed` or a
  poll error; it is run on a budget of ticker ticks.
-/

namespace Ec2Snapper

/-! ## Data model -/

/-- The fields of `ec2.Snapshot` the two commands read; the SDK pointers are
taken as populated, as in every `DescribeSnapshots` answer. -/
structure Snapshot where
  SnapshotId : String
  VolumeId : String
  StartTime : Int
  State : String
  Progress : String
deriving DecidableEq

/-- Constant `ec2.SnapshotStateCompleted`. -/
def SnapshotStateCompleted : String := "completed"

/-- Constant `ec2.SnapshotStateError`. -/
def SnapshotStateError : String := "error"

/-- The two shapes of `ec2.DescribeSnapshotsInput` the code builds: a
`volume-id` filter, or a list of snapshot ids. -/
inductive DescribeSnapshotsInput where
  | volumeIdFilter (VolumeId : String)
  | snapshotIds (SnapshotIds : List String)
deriving DecidableEq

/-- A call to the EC2 API, with the request fields the code sets. -/
inductive Call where
  | CreateSnapshot (VolumeId : String) (DryRun : Bool) (Description : String)
  | DescribeSnapshots (input : DescribeSnapshotsInput)
  | DeleteSnapshot (DryRun : Bool) (SnapshotId : String)
deriving DecidableEq

/-- The EC2 client `svc`. Every operation sees the calls issued before it. -/
structure EC2 where
  CreateSnapshot : List Call → String → Bool → String → Except String String
  DescribeSnapshots : List Call → DescribeSnapshotsInput → Except String (List Snapshot)
  DeleteSnapshot : List Call → Bool → String → Option String

/-- A line printed through `cli.Ui`, tagged with the method that printed it. -/
inductive UiLine where
  | Output (msg : String)
  | Info (msg : String)
  | Warn (msg : String)
  | Error (msg : String)
deriving DecidableEq

/-- What a run has done so far: provider calls and printed lines, oldest first. -/
structure Run where
  calls : List Call
  ui : List UiLine
deriving DecidableEq

/-- Record a provider call. -/
def Run.call (r : Run) (k : Call) : Run :=
  { r with calls := r.calls ++ [k] }

/-- Record a printed line. -/
def Run.say (r : Run) (l : UiLine) : Run :=
  { r with ui := r.ui ++ [l] }

/-- The `DeleteSnapshot` calls among a list of calls. -/
def deleteCalls (cs : List Call) : List Call :=
  cs.filter (fun k => match k with
    | Call.DeleteSnapshot _ _ => true
    | _ => false)

/-- A call that changes provider state: `CreateSnapshot` or `DeleteSnapshot`. -/
def Call.mutating : Call → Bool
  | Call.CreateSnapshot _ _ _ => true
  | Call.DeleteSnapshot _ _ => true
  | Call.DescribeSnapshots _ => false

/-- The `DryRun` field of a mutating call (`none` for `DescribeSnapshots`). -/
def Call.dryRun : Call → Option Bool
  | Call.CreateSnapshot _ d _ => some d
  | Call.DeleteSnapshot d _ => some d
  | Call.DescribeSnapshots _ => none

/-! ## Standard-library pieces -/

/-- Smallest `time.Duration` (int64 nanoseconds). -/
def minDuration : Int := -9223372036854775808

/-- Largest `time.Duration` (int64 nanoseconds). -/
def maxDuration : Int := 9223372036854775807

/-- Method `t.Sub(u)` of package `time`: the difference in nanoseconds, saturated to
the range of `Duration`. -/
def timeSub (t u : Int) : Int :=
  if t - u < minDuration then minDuration
  else if maxDuration < t - u then maxDuration
  else t - u

/-- Whether `p` is an initial segment of `s`. -/
def startsWithChars : List Char → List Char → Bool
  | _, [] => true
  | [], _ :: _ => false
  | a :: s, b :: p => a == b && startsWithChars s p

/-- Whether `sub` occurs in `s` at some position. -/
def containsChars : List Char → List Char → Bool
  | [], sub => startsWithChars [] sub
  | a :: s, sub => startsWithChars (a :: s) sub || containsChars s sub

/-- Function `strings.Contains(s, substr)` of the standard library. -/
def strings.Contains (s substr : String) : Bool :=
  containsChars s.toList substr.toList

/-! ### float64 and `Duration.Hours` -/

/-- Floor of the base-2 logarithm of `n`, by halving at most `fuel` times. -/
def log2Fuel : Nat → Nat → Nat
  | 0, _ => 0
  | fuel + 1, n => if n < 2 then 0 else log2Fuel fuel (n / 2) + 1

/-- Ceiling of the base-2 logarithm of `n`, by halving at most `fuel` times. -/
def clog2Fuel : Nat → Nat → Nat
  | 0, _ => 0
  | fuel + 1, n => if n < 2 then 0 else clog2Fuel fuel ((n + 1) / 2) + 1

/-- The binary exponent of a positive rational: the `e` with `2 ^ e ≤ x < 2 ^ (e + 1)`. -/
def binade (x : ℚ) : Int :=
  if 1 ≤ x then (log2Fuel ⌊x⌋₊ ⌊x⌋₊ : Int) else -(clog2Fuel ⌈x⁻¹⌉₊ ⌈x⁻¹⌉₊ : Int)

/-- Round to the nearest integer, a tie going to the even one. -/
def roundHalfEven (m : ℚ) : Int :=
  if m - ⌊m⌋ < 1 / 2 then ⌊m⌋
  else if 1 / 2 < m - ⌊m⌋ then ⌊m⌋ + 1
  else if ⌊m⌋ % 2 = 0 then ⌊m⌋ else ⌊m⌋ + 1

/-- Round a positive rational to 53 significant bits, to nearest, ties to even. -/
def float64RoundPos (x : ℚ) : ℚ :=
  (roundHalfEven (x / 2 ^ (binade x - 52)) : ℚ) * 2 ^ (binade x - 52)

/-- The float64 nearest to a rational (round to nearest, ties to even, 53-bit
significand). The exponent range of float64 is not modelled: the values
`Duration.Hours` works with lie between `2 ^ (-42)` and `2 ^ 22` in magnitude. -/
def float64Round (x : ℚ) : ℚ :=
  if x = 0 then 0
  else if x < 0 then -float64RoundPos (-x)
  else float64RoundPos x

/-- Constant `time.Hour`, in nanoseconds. -/
def Hour : Int := 3600000000000

/-- Method `Duration.Hours` of package `time`:
`hour := d / Hour; nsec := d % Hour; return float64(hour) + float64(nsec)/(60*60*1e9)`.
Both conversions are exact (the operands are below `2 ^ 53` in magnitude);
the quotient and the sum are each rounded to float64. -/
def durationHours (d : Int) : ℚ :=
  float64Round ((d.tdiv Hour : Int) + float64Round ((d.tmod Hour : Int) / 3600000000000))

/-- The age of a snapshot in hours as the spec states it (4.3, step 4):
`now - snapshot.creationTimestamp` in hours, exactly, with no rounding and no
saturation. -/
def ageHours (now : Int) (s : Snapshot) : ℚ :=
  ((now - s.StartTime : Int) : ℚ) / 3600000000000

/-! ## delete_volume_snapshot_command.go -/

structure DeleteVolumeSnapshotCommand where
  AwsRegion : String
  VolumeId : String
  OlderThan : String
  RequireAtLeast : Int
  DryRun : Bool
deriving DecidableEq

/-- Check for required command-line args. -/
def validateDeleteVolumeSnapshotsArgs (c : DeleteVolumeSnapshotCommand) : Option String :=
  if c.AwsRegion = "" then
    some "ERROR: The argument \x27--region\x27 is required."
  else if c.VolumeId = "" then
    some "ERROR: The argument \x27--volume-id\x27 is required\x27."
  else if c.OlderThan = "" then
    some "ERROR: The argument \x27--older-than\x27 is required."
  else if c.RequireAtLeast < 0 then
    some "ERROR: The argument \x27--require-at-least\x27 must be a positive integer."
  else
    none

/-- The `for i := 0; i < len(snapshots); i++` loop of
`filterSnapshotsByDateRange`: `n` iterations are left, `i` is the index and
`filteredSnapshots` the slice built so far. `clock i` is what `time.Now()`
returns in iteration `i`. -/
def filterSnapshotsByDateRangeLoop {F : Type} [LinearOrder F] (Hours : Int → F)
    (clock : Nat → Int) (snapshots : List Snapshot) (olderThanHours : F) :
    Nat → Nat → List Snapshot → List Snapshot
  | 0, _, filteredSnapshots => filteredSnapshots
  | n + 1, i, filteredSnapshots =>
    match snapshots.get? i with
    | none => filteredSnapshots
    | some s =>
      let now := clock i
      let duration := timeSub now s.StartTime
      if Hours duration > olderThanHours then
        filterSnapshotsByDateRangeLoop Hours clock snapshots olderThanHours n (i + 1)
          (filteredSnapshots ++ [s])
      else
        filterSnapshotsByDateRangeLoop Hours clock snapshots olderThanHours n (i + 1)
          filteredSnapshots

/-- Now filter the snapshots to only include those within our date range. -/
def filterSnapshotsByDateRange {F : Type} [LinearOrder F] (Hours : Int → F)
    (clock : Nat → Int) (snapshots : List Snapshot) (olderThanHours : F) :
    List Snapshot × Option String :=
  (filterSnapshotsByDateRangeLoop Hours clock snapshots olderThanHours snapshots.length 0 [],
    none)

/-- The `for _, snapshot := range snapshots` loop of `deleteVolumeSnapshots`. -/
def deleteVolumeSnapshotsLoop (svc : EC2) (dryRun : Bool) :
    List Snapshot → Run → Option String × Run
  | [], r => (none, r)
  | snapshot :: rest, r =>
    let r1 := r.say (UiLine.Output ("   Deleting snapshot " ++ snapshot.SnapshotId ++ "..."))
    let deleteErr := svc.DeleteSnapshot r1.calls dryRun snapshot.SnapshotId
    let r2 := r1.call (Call.DeleteSnapshot dryRun snapshot.SnapshotId)
    match deleteErr with
    | some err => (some err, r2)
    | none => deleteVolumeSnapshotsLoop svc dryRun rest r2

/-- Delete all snapshots that were found. -/
def deleteVolumeSnapshots (svc : EC2) (snapshots : List Snapshot) (dryRun : Bool) (r : Run) :
    Option String × Run :=
  let r1 := r.say (UiLine.Output
    (" Found " ++ toString snapshots.length ++ " snapshot(s) to delete"))
  match deleteVolumeSnapshotsLoop svc dryRun snapshots r1 with
  | (some deleteErr, r2) => (some deleteErr, r2)
  | (none, r2) => (none, r2.say (UiLine.Output "   Done..."))

/-- The body of the `delete-volume-snapshot` command. -/
def deleteVolumeSnapshotSnapshots {F : Type} [LinearOrder F] (Hours : Int → F)
    (parseOlderThanToHours : String → Except String F) (svc : EC2) (clock : Nat → Int)
    (c : DeleteVolumeSnapshotCommand) (r : Run) : Option String × Run :=
  match validateDeleteVolumeSnapshotsArgs c with
  | some err => (some err, r)
  | none =>
    let r1 := if c.DryRun then
        r.say (UiLine.Warn
          "WARNING: This is a dry run, and no actions will be taken, despite what any output may say!")
      else r
    let r2 := r1.say (UiLine.Info ("Fetching snapshots for volume-id: " ++ c.VolumeId))
    let input := DescribeSnapshotsInput.volumeIdFilter c.VolumeId
    let describeSnapshotsResp := svc.DescribeSnapshots r2.calls input
    let r3 := r2.call (Call.DescribeSnapshots input)
    match describeSnapshotsResp with
    | Except.error err => (some err, r3)
    | Except.ok snapshots =>
      let r4 := r3.say (UiLine.Info ("==> Found " ++ toString snapshots.length ++ " snapshots"))
      if snapshots.length = 0 then
        (none, r4.say (UiLine.Info ("NO ACTION TAKEN. There are no existing snapshots of volume "
          ++ c.VolumeId ++ " to delete.")))
      else if (snapshots.length : Int) ≤ c.RequireAtLeast then
        (none, r4.say (UiLine.Info ("NO ACTION TAKEN. There are currently "
          ++ toString snapshots.length ++ " snapshot(s), and --require-at-least="
          ++ toString c.RequireAtLeast ++ " so no further action can be taken.")))
      else
        let r5 := r4.say (UiLine.Info ("Keeping only snapshots that are at least " ++ c.OlderThan))
        match parseOlderThanToHours c.OlderThan with
        | Except.error err => (some err, r5)
        | Except.ok hours =>
          match filterSnapshotsByDateRange Hours clock snapshots hours with
          | (_, some err) => (some err, r5)
          | (filteredSnapshots, none) =>
            let r6 := r5.say (UiLine.Output ("==> Found " ++ toString filteredSnapshots.length
              ++ " total snapshots for deletion."))
            if filteredSnapshots.length = 0 then
              (none, r6.say (UiLine.Warn "No snapshot to delete."))
            else
              match deleteVolumeSnapshots svc snapshots c.DryRun r6 with
              | (some err, r7) => (some err, r7)
              | (none, r7) =>
                if c.DryRun then
                  (none, r7.say (UiLine.Info ("==> DRY RUN. Had this not been a dry run, "
                    ++ toString filteredSnapshots.length ++ " snapshots would have been deleted.")))
                else
                  (none, r7.say (UiLine.Info ("==> Success! Deleted "
                    ++ toString filteredSnapshots.length ++ " snapshots.")))

/-! ## create_volume_snapshot_command.go -/

structure CreateVolumeSnapshotCommand where
  AwsRegion : String
  VolumeId : String
  DryRun : Bool
  Wait : Bool
deriving DecidableEq

/-- Check for required command-line args of `create-volume-snapshot`. -/
def validateCreateVolumeSnapshotArgs (c : CreateVolumeSnapshotCommand) : Option String :=
  if c.AwsRegion = "" then
    some "ERROR: The argument \x27--region\x27 is required."
  else if c.VolumeId = "" then
    some "ERROR: The argument \x27--volume-id\x27 is required."
  else
    none

/-- The error `getSnapshot` returns when the provider lists no snapshot. -/
def errSnapshotNotFound : String := "ERROR: Could not find the Snapshot just created."

/-- The error `createVolumeSnapshot` returns for a `NoCredentialProviders` failure. -/
def errNoCredentials : String :=
  "ERROR: No AWS credentials were found.  Either set the environment variables AWS_ACCESS_KEY_ID and AWS_SECRET_ACCESS_KEY, or run this program on an EC2 instance that has an IAM Role with the appropriate permissions."

/-- The error `createVolumeSnapshot` returns when the new snapshot is in state `error`. -/
def errSnapshotStateError : String :=
  "ERROR: Snapshot was created but entered a state of \x27Error\x27. This is an AWS issue. Please re-run this command.  Note that you will need to manually de-register the snapshot in the AWS console or via the API."

/-- Look a snapshot up by id: one `DescribeSnapshots` call. -/
def getSnapshot (svc : EC2) (snapshotId : String) (r : Run) : Except String Snapshot × Run :=
  let input := DescribeSnapshotsInput.snapshotIds [snapshotId]
  let snapshotsResp := svc.DescribeSnapshots r.calls input
  let r1 := r.call (Call.DescribeSnapshots input)
  match snapshotsResp with
  | Except.error err => (Except.error err, r1)
  | Except.ok [] => (Except.error errSnapshotNotFound, r1)
  | Except.ok (s :: _) => (Except.ok s, r1)

/-- The `OUT: for { select { case <-timer.C: ... } }` loop of
`createVolumeSnapshot`, one iteration per tick of the 10 s ticker. The first
argument is the number of ticks the run is given; `none` means the loop is
still waiting when they are used up. Otherwise the result is the error the
loop returned with, or `none` after `break OUT`. -/
def createVolumeSnapshotWaitLoop (svc : EC2) (snapshotId : String) :
    Nat → Run → Option (Option String × Run)
  | 0, _ => none
  | ticks + 1, r =>
    match getSnapshot svc snapshotId r with
    | (Except.error err, r1) => some (some err, r1)
    | (Except.ok snapshot, r1) =>
      let r2 := r1.say (UiLine.Output ("      Progress " ++ snapshot.Progress))
      if snapshot.State = SnapshotStateCompleted then
        some (none, r2.say (UiLine.Output ("      State " ++ snapshot.State)))
      else
        createVolumeSnapshotWaitLoop svc snapshotId ticks r2

/-- The body of the `create-volume-snapshot` command. `timestamp` is
`time.Now()` formatted with `dateLayoutForAmiName`; `ticks` bounds the wait
loop. The result is the pair `(snapshotId, err)` and the run, or `none` when
the wait loop has not finished within `ticks` ticks. -/
def createVolumeSnapshot (svc : EC2) (timestamp : String) (ticks : Nat)
    (c : CreateVolumeSnapshotCommand) (r : Run) : Option ((String × Option String) × Run) :=
  let snapshotId := ""
  match validateCreateVolumeSnapshotArgs c with
  | some err => some ((snapshotId, some err), r)
  | none =>
    let description := "Automated snapshot by ec2-snapper at " ++ timestamp
    let r1 := r.say (UiLine.Output ("==> Creating Snapshot for " ++ c.VolumeId ++ "..."))
    let resp := svc.CreateSnapshot r1.calls c.VolumeId c.DryRun description
    let r2 := r1.call (Call.CreateSnapshot c.VolumeId c.DryRun description)
    match resp with
    | Except.error err =>
      if strings.Contains err "NoCredentialProviders" then
        some ((snapshotId, some errNoCredentials), r2)
      else
        some ((snapshotId, some err), r2)
    | Except.ok respSnapshotId =>
      let snapshotId := respSnapshotId
      if !c.DryRun then
        match getSnapshot svc snapshotId r2 with
        | (Except.error err, r3) => some ((snapshotId, some err), r3)
        | (Except.ok snapshot, r3) =>
          let r4 := r3.say (UiLine.Output ("      State " ++ snapshot.State))
          if snapshot.State = SnapshotStateError then
            some ((snapshotId, some errSnapshotStateError), r4)
          else if c.Wait then
            match createVolumeSnapshotWaitLoop svc snapshotId ticks r4 with
            | none => none
            | some (some err, r5) => some ((snapshotId, some err), r5)
            | some (none, r5) =>
              some ((snapshotId, none), r5.say (UiLine.Info ("==> Success! Created " ++ snapshotId)))
          else
            some ((snapshotId, none), r4.say (UiLine.Info ("==> Success! Created " ++ snapshotId)))
      else
        some ((snapshotId, none), r2.say (UiLine.Info ("==> Success! Created " ++ snapshotId)))

/-- The `DeleteSnapshot` call the delete loop issues for a snapshot. -/
def deleteCallFor (dryRun : Bool) (s : Snapshot) : Call :=
  Call.DeleteSnapshot dryRun s.SnapshotId

/-- The `DescribeSnapshots` call `getSnapshot` issues for a snapshot id. -/
def getSnapshotCall (snapshotId : String) : Call :=
  Call.DescribeSnapshots (DescribeSnapshotsInput.snapshotIds [snapshotId])

/-- The `CreateSnapshot` call `createVolumeSnapshot` issues. -/
def createSnapshotCall (c : CreateVolumeSnapshotCommand) (timestamp : String) : Call :=
  Call.CreateSnapshot c.VolumeId c.DryRun ("Automated snapshot by ec2-snapper at " ++ timestamp)

/-! ## Concrete instances used in the examples -/

/-- Nanoseconds in a day. -/
def day : Int := 86400000000000

/-- The decimal value of a list of digits, or `none` if one is not a digit. -/
def digitsValue : List Char → Nat → Option Nat
  | [], acc => some acc
  | ch :: rest, acc =>
    if ch.isDigit then digitsValue rest (10 * acc + (ch.toNat - 48)) else none

/-- Modelled from the spec: `parseOlderThanToHours` is defined outside the
source files embedded here. The spec (4.3, step 3) has it turn the age
threshold into an absolute hour count, with at least the day and hour unit
suffixes (`30d`, `4h`), and fail on unrecognised formats. This model reads
one or more digits followed by `d` or `h`. -/
def parseOlderThanToHours (olderThan : String) : Except String ℚ :=
  match olderThan.toList.reverse with
  | unit :: revDigits =>
    match revDigits, digitsValue revDigits.reverse 0 with
    | _ :: _, some n =>
      if unit = 'd' then Except.ok (24 * (n : ℚ))
      else if unit = 'h' then Except.ok (n : ℚ)
      else Except.error ("ERROR: unrecognised --older-than value " ++ olderThan)
    | _, _ => Except.error ("ERROR: unrecognised --older-than value " ++ olderThan)
  | [] => Except.error ("ERROR: unrecognised --older-than value " ++ olderThan)

/-- A snapshot of `vol-1` taken `ageDays` days before time `0`. -/
def snapshotAged (id : String) (ageDays : Int) : Snapshot :=
  { SnapshotId := id, VolumeId := "vol-1", StartTime := -(ageDays * day),
    State := SnapshotStateCompleted, Progress := "100%" }

/-- The five snapshots of the spec scenario, aged 10, 20, 35, 40 and 50 days. -/
def scenarioSnapshots : List Snapshot :=
  [snapshotAged "snap-10" 10, snapshotAged "snap-20" 20, snapshotAged "snap-35" 35,
   snapshotAged "snap-40" 40, snapshotAged "snap-50" 50]

/-- A provider that lists `snaps` for every `DescribeSnapshots` call, creates
snapshot `snap-new`, and whose deletes all succeed. -/
def staticProvider (snaps : List Snapshot) : EC2 :=
  { CreateSnapshot := fun _ _ _ _ => Except.ok "snap-new"
    DescribeSnapshots := fun _ _ => Except.ok snaps
    DeleteSnapshot := fun _ _ _ => none }

/-- The request of the spec scenario: `--older-than 30d --require-at-least 2`. -/
def scenarioCommand : DeleteVolumeSnapshotCommand :=
  { AwsRegion := "us-west-2", VolumeId := "vol-1", OlderThan := "30d",
    RequireAtLeast := 2, DryRun := false }

/-- A snapshot of `vol-1` taken 4800 hours and one nanosecond before time `0`. -/
def nearThresholdSnapshot : Snapshot :=
  { SnapshotId := "snap-4800h", VolumeId := "vol-1", StartTime := -17280000000000001,
    State := SnapshotStateCompleted, Progress := "100%" }

/-- A run that has done nothing yet. -/
def Run.start : Run := { calls := [], ui := [] }

/-- A request that passes validation, with a five-snapshot floor. -/
def floorCommand : DeleteVolumeSnapshotCommand :=
  { AwsRegion := "us-west-2", VolumeId := "vol-1", OlderThan := "30d",
    RequireAtLeast := 5, DryRun := false }

/-- A dry-run `create-volume-snapshot` request. -/
def dryRunCreateCommand : CreateVolumeSnapshotCommand :=
  { AwsRegion := "us-west-2", VolumeId := "vol-1", DryRun := true, Wait := true }

/-- A dry-run `delete-volume-snapshot` request. -/
def dryRunDeleteCommand : DeleteVolumeSnapshotCommand :=
  { AwsRegion := "us-west-2", VolumeId := "vol-1", OlderThan := "30d",
    RequireAtLeast := 2, DryRun := true }

/-- A request that passes validation but whose threshold does not parse. -/
def unparsableCommand : DeleteVolumeSnapshotCommand :=
  { AwsRegion := "us-west-2", VolumeId := "vol-1", OlderThan := "soon",
    RequireAtLeast := 2, DryRun := false }

/-- The three oldest snapshots of the scenario: every one is older than 30 days. -/
def oldSnapshots : List Snapshot :=
  [snapshotAged "snap-35" 35, snapshotAged "snap-40" 40, snapshotAged "snap-50" 50]

/-- A snapshot of `vol-1` with id `snap-new` in a given state and progress. -/
def newSnapshot (state progress : String) : Snapshot :=
  { SnapshotId := "snap-new", VolumeId := "vol-1", StartTime := 0,
    State := state, Progress := progress }

/-- What the polling provider reports once `n` calls have been issued: the
first fetch and two polls find the snapshot pending, later ones completed. -/
def statusAfter (n : Nat) : Snapshot :=
  if n ≤ 1 then newSnapshot "pending" "0%"
  else if n = 2 then newSnapshot "pending" "10%"
  else if n = 3 then newSnapshot "pending" "55%"
  else newSnapshot "completed" "100%"

/-- A provider that creates `snap-new` and reports its status by the number
of calls already issued. -/
def pollingProvider : EC2 :=
  { CreateSnapshot := fun _ _ _ _ => Except.ok "snap-new"
    DescribeSnapshots := fun h _ => Except.ok [statusAfter h.length]
    DeleteSnapshot := fun _ _ _ => none }

/-- A provider that creates `snap-new` and then reports it in state `error`. -/
def erroredProvider : EC2 :=
  { CreateSnapshot := fun _ _ _ _ => Except.ok "snap-new"
    DescribeSnapshots := fun _ _ => Except.ok [newSnapshot "error" "0%"]
    DeleteSnapshot := fun _ _ _ => none }

/-- A provider without credentials: `CreateSnapshot` fails the way the SDK
does when its credential chain is empty. -/
def noCredentialsProvider : EC2 :=
  { CreateSnapshot := fun _ _ _ _ =>
      Except.error "NoCredentialProviders: no valid providers in chain. Deprecated."
    DescribeSnapshots := fun _ _ => Except.ok []
    DeleteSnapshot := fun _ _ _ => none }

/-- A provider that lists the scenario snapshots and refuses to delete `snap-20`. -/
def refusingProvider : EC2 :=
  { CreateSnapshot := fun _ _ _ _ => Except.ok "snap-new"
    DescribeSnapshots := fun _ _ => Except.ok scenarioSnapshots
    DeleteSnapshot := fun _ _ id =>
      if id = "snap-20" then some "InvalidSnapshot.InUse: snap-20 is in use" else none }

/-- A `create-volume-snapshot --wait` request. -/
def waitCommand : CreateVolumeSnapshotCommand :=
  { AwsRegion := "us-west-2", VolumeId := "vol-1", DryRun := false, Wait := true }

/-! ## Lemmas on float64 rounding -/

theorem log2Fuel_eq_log : ∀ (fuel n : Nat), n ≤ fuel → log2Fuel fuel n = Nat.log 2 n := by
  intro fuel
  induction fuel with
  | zero =>
    intro n hn
    obtain rfl : n = 0 := by omega
    simp [log2Fuel]
  | succ fuel ih =>
    intro n hn
    rw [log2Fuel]
    split
    · rename_i h
      rw [Nat.log_of_lt h]
    · rename_i h
      have h2 : 2 ≤ n := by omega
      rw [Nat.log_of_one_lt_of_le (by norm_num) h2, ih (n / 2) (by omega)]

theorem clog2Fuel_eq_clog : ∀ (fuel n : Nat), n ≤ fuel → clog2Fuel fuel n = Nat.clog 2 n := by
  intro fuel
  induction fuel with
  | zero =>
    intro n hn
    obtain rfl : n = 0 := by omega
    simp [clog2Fuel]
  | succ fuel ih =>
    intro n hn
    rw [clog2Fuel]
    split
    · rename_i h
      rw [Nat.clog_of_right_le_one (by omega)]
    · rename_i h
      have h2 : 2 ≤ n := by omega
      have h3 : n + 2 - 1 = n + 1 := by omega
      rw [Nat.clog_of_two_le (by norm_num) h2, ih ((n + 1) / 2) (by omega), h3]

theorem binade_eq_log (x : ℚ) : binade x = Int.log 2 x := by
  unfold binade Int.log
  rw [log2Fuel_eq_log _ _ le_rfl, clog2Fuel_eq_clog _ _ le_rfl]

theorem binade_le (x : ℚ) (hx : 0 < x) : (2 : ℚ) ^ binade x ≤ x := by
  rw [binade_eq_log]
  exact_mod_cast Int.zpow_log_le_self (b := 2) (by norm_num) hx

theorem lt_binade_succ (x : ℚ) : x < (2 : ℚ) ^ (binade x + 1) := by
  rw [binade_eq_log]
  exact_mod_cast Int.lt_zpow_succ_log_self (b := 2) (by norm_num) x

theorem binade_eq_of_bounds (x : ℚ) (e : Int) (hx : 0 < x) (h1 : (2 : ℚ) ^ e ≤ x)
    (h2 : x < (2 : ℚ) ^ (e + 1)) : binade x = e := by
  rw [binade_eq_log]
  have ha : e ≤ Int.log 2 x :=
    (Int.zpow_le_iff_le_log (b := 2) (by norm_num) hx).1 (by exact_mod_cast h1)
  have hb : Int.log 2 x < e + 1 :=
    (Int.lt_zpow_iff_log_lt (b := 2) (by norm_num) hx).1 (by exact_mod_cast h2)
  omega

theorem binade_mono (x y : ℚ) (hx : 0 < x) (h : x ≤ y) : binade x ≤ binade y := by
  rw [binade_eq_log, binade_eq_log]
  exact Int.log_mono_right hx h

theorem binade_lt_of_lt_zpow (x : ℚ) (e : Int) (hx : 0 < x) (h : x < (2 : ℚ) ^ e) :
    binade x < e := by
  rw [binade_eq_log]
  exact (Int.lt_zpow_iff_log_lt (b := 2) (by norm_num) hx).1 (by exact_mod_cast h)

/-! ### Rounding to the nearest integer -/

theorem le_roundHalfEven (m : ℚ) (k : Int) (h : (k : ℚ) ≤ m) : k ≤ roundHalfEven m := by
  have hk : k ≤ ⌊m⌋ := Int.le_floor.2 h
  unfold roundHalfEven
  split_ifs <;> omega

theorem roundHalfEven_le (m : ℚ) (k : Int) (h : m ≤ (k : ℚ)) : roundHalfEven m ≤ k := by
  have hfl : (⌊m⌋ : ℚ) ≤ m := Int.floor_le m
  have hk : ⌊m⌋ ≤ k := by exact_mod_cast hfl.trans h
  unfold roundHalfEven
  by_cases heq : ⌊m⌋ = k
  · have hm : m - ⌊m⌋ ≤ 0 := by rw [heq]; linarith
    have : m - ⌊m⌋ < 1 / 2 := by linarith
    rw [if_pos this]
    omega
  · split_ifs <;> omega

theorem roundHalfEven_intCast (k : Int) : roundHalfEven (k : ℚ) = k :=
  le_antisymm (roundHalfEven_le _ _ le_rfl) (le_roundHalfEven _ _ le_rfl)

theorem roundHalfEven_mono (m n : ℚ) (h : m ≤ n) : roundHalfEven m ≤ roundHalfEven n := by
  have hfl : ⌊m⌋ ≤ ⌊n⌋ := Int.floor_le_floor h
  by_cases heq : ⌊m⌋ = ⌊n⌋
  · unfold roundHalfEven
    rw [← heq]
    have hfr : m - ⌊m⌋ ≤ n - ⌊m⌋ := by linarith
    split_ifs <;> first | omega | linarith
  · have h1 : roundHalfEven m ≤ ⌊m⌋ + 1 := by
      apply roundHalfEven_le
      push_cast
      linarith [Int.lt_floor_add_one m]
    have h2 : ⌊n⌋ ≤ roundHalfEven n := le_roundHalfEven _ _ (Int.floor_le n)
    omega

theorem roundHalfEven_ge (m : ℚ) : m - 1 / 2 ≤ (roundHalfEven m : ℚ) := by
  have hfl : (⌊m⌋ : ℚ) ≤ m := Int.floor_le m
  have hlt : m < ⌊m⌋ + 1 := Int.lt_floor_add_one m
  unfold roundHalfEven
  split_ifs <;> push_cast <;> linarith

/-! ### Rounding to 53 significant bits -/

theorem two_zpow_pos (e : Int) : (0 : ℚ) < 2 ^ e := zpow_pos (by norm_num) e

/-- The scaled significand of a positive rational lies in `[2 ^ 52, 2 ^ 53)`. -/
theorem significand_bounds (x : ℚ) (hx : 0 < x) :
    ((2 ^ 52 : Int) : ℚ) ≤ x / 2 ^ (binade x - 52)
    ∧ x / 2 ^ (binade x - 52) < ((2 ^ 53 : Int) : ℚ) := by
  have hu := two_zpow_pos (binade x - 52)
  have h1 := binade_le x hx
  have h2 := lt_binade_succ x
  have e1 : (2 : ℚ) ^ binade x = 2 ^ 52 * 2 ^ (binade x - 52) := by
    rw [← zpow_natCast, ← zpow_add₀ (by norm_num)]
    congr 1
    norm_num
  have e2 : (2 : ℚ) ^ (binade x + 1) = 2 ^ 53 * 2 ^ (binade x - 52) := by
    rw [← zpow_natCast, ← zpow_add₀ (by norm_num)]
    congr 1
    push_cast
    ring
  constructor
  · have hc : ((2 ^ 52 : Int) : ℚ) = (2 : ℚ) ^ 52 := by norm_num
    rw [le_div_iff₀ hu, hc, ← e1]
    exact h1
  · have hc : ((2 ^ 53 : Int) : ℚ) = (2 : ℚ) ^ 53 := by norm_num
    rw [div_lt_iff₀ hu, hc, ← e2]
    exact h2

/-- The rounded value has the form `n * 2 ^ (binade x - 52)` with `2 ^ 52 ≤ n ≤ 2 ^ 53`. -/
theorem float64RoundPos_form (x : ℚ) (hx : 0 < x) :
    ∃ n : Int, 2 ^ 52 ≤ n ∧ n ≤ 2 ^ 53 ∧ float64RoundPos x = (n : ℚ) * 2 ^ (binade x - 52) := by
  obtain ⟨h1, h2⟩ := significand_bounds x hx
  exact ⟨roundHalfEven (x / 2 ^ (binade x - 52)), le_roundHalfEven _ _ h1,
    roundHalfEven_le _ _ h2.le, rfl⟩

theorem float64RoundPos_ge_zpow (x : ℚ) (hx : 0 < x) :
    (2 : ℚ) ^ binade x ≤ float64RoundPos x := by
  obtain ⟨n, h1, _, h3⟩ := float64RoundPos_form x hx
  have hu := two_zpow_pos (binade x - 52)
  have e1 : (2 : ℚ) ^ binade x = 2 ^ 52 * 2 ^ (binade x - 52) := by
    rw [← zpow_natCast, ← zpow_add₀ (by norm_num)]
    congr 1
    norm_num
  rw [h3, e1]
  have : ((2 : ℚ) ^ 52) ≤ (n : ℚ) := by exact_mod_cast h1
  exact mul_le_mul_of_nonneg_right this hu.le

theorem float64RoundPos_le_zpow (x : ℚ) (hx : 0 < x) :
    float64RoundPos x ≤ (2 : ℚ) ^ (binade x + 1) := by
  obtain ⟨n, _, h2, h3⟩ := float64RoundPos_form x hx
  have hu := two_zpow_pos (binade x - 52)
  have e2 : (2 : ℚ) ^ (binade x + 1) = 2 ^ 53 * 2 ^ (binade x - 52) := by
    rw [← zpow_natCast, ← zpow_add₀ (by norm_num)]
    congr 1
    push_cast
    ring
  rw [h3, e2]
  have : (n : ℚ) ≤ ((2 : ℚ) ^ 53) := by exact_mod_cast h2
  exact mul_le_mul_of_nonneg_right this hu.le

theorem float64RoundPos_pos (x : ℚ) (hx : 0 < x) : 0 < float64RoundPos x :=
  lt_of_lt_of_le (two_zpow_pos _) (float64RoundPos_ge_zpow x hx)

/-- Rounding is monotone on the positive rationals. -/
theorem float64RoundPos_mono (x y : ℚ) (hx : 0 < x) (h : x ≤ y) :
    float64RoundPos x ≤ float64RoundPos y := by
  have hy : 0 < y := lt_of_lt_of_le hx h
  have he := binade_mono x y hx h
  by_cases heq : binade x = binade y
  · unfold float64RoundPos
    rw [heq]
    have hu := two_zpow_pos (binade y - 52)
    have hm : x / 2 ^ (binade y - 52) ≤ y / 2 ^ (binade y - 52) :=
      div_le_div_of_nonneg_right h hu.le
    have := roundHalfEven_mono _ _ hm
    exact mul_le_mul_of_nonneg_right (by exact_mod_cast this) hu.le
  · have hlt : binade x + 1 ≤ binade y := by omega
    calc float64RoundPos x ≤ (2 : ℚ) ^ (binade x + 1) := float64RoundPos_le_zpow x hx
      _ ≤ (2 : ℚ) ^ binade y := zpow_le_zpow_right₀ (by norm_num) hlt
      _ ≤ float64RoundPos y := float64RoundPos_ge_zpow y hy

/-- Rounding moves a positive rational down by at most half a unit in the last place. -/
theorem float64RoundPos_ge_sub (x : ℚ) :
    x - 2 ^ (binade x - 53) ≤ float64RoundPos x := by
  have hu := two_zpow_pos (binade x - 52)
  have h := roundHalfEven_ge (x / 2 ^ (binade x - 52))
  have e : (2 : ℚ) ^ (binade x - 53) = 1 / 2 * 2 ^ (binade x - 52) := by
    have : binade x - 53 = (binade x - 52) - 1 := by ring
    rw [this, zpow_sub_one₀ (by norm_num)]
    ring
  unfold float64RoundPos
  have h2 := mul_le_mul_of_nonneg_right h hu.le
  rw [sub_mul, div_mul_cancel₀ _ hu.ne.symm] at h2
  rw [e]
  exact h2

/-- A positive rational whose scaled significand is an integer rounds to itself. -/
theorem float64RoundPos_of_int (x : ℚ) (z : Int)
    (h : x / 2 ^ (binade x - 52) = (z : ℚ)) : float64RoundPos x = x := by
  have hu := two_zpow_pos (binade x - 52)
  unfold float64RoundPos
  rw [h, roundHalfEven_intCast, ← h, div_mul_cancel₀ _ hu.ne.symm]

/-- Every `k * 2 ^ E` with `0 < k < 2 ^ 53` is a float64: it rounds to itself. -/
theorem float64RoundPos_mul_zpow (k : Nat) (E : Int) (hk0 : 0 < k) (hk : k < 2 ^ 53) :
    float64RoundPos ((k : ℚ) * 2 ^ E) = (k : ℚ) * 2 ^ E := by
  have hx : (0 : ℚ) < (k : ℚ) * 2 ^ E := mul_pos (by exact_mod_cast hk0) (two_zpow_pos E)
  have hL : Nat.log 2 k < 53 := Nat.log_lt_of_lt_pow (by omega) hk
  have hlo : 2 ^ Nat.log 2 k ≤ k := Nat.pow_log_le_self 2 (by omega)
  have hhi : k < 2 ^ (Nat.log 2 k + 1) := Nat.lt_pow_succ_log_self (by norm_num) k
  have hb : binade ((k : ℚ) * 2 ^ E) = (Nat.log 2 k : Int) + E := by
    apply binade_eq_of_bounds _ _ hx
    · rw [zpow_add₀ (by norm_num), zpow_natCast]
      exact mul_le_mul_of_nonneg_right (by exact_mod_cast hlo) (two_zpow_pos E).le
    · have : (Nat.log 2 k : Int) + E + 1 = ((Nat.log 2 k + 1 : Nat) : Int) + E := by
        push_cast; ring
      rw [this, zpow_add₀ (by norm_num), zpow_natCast]
      exact mul_lt_mul_of_pos_right (by exact_mod_cast hhi) (two_zpow_pos E)
  apply float64RoundPos_of_int _ ((k : Int) * 2 ^ (52 - Nat.log 2 k))
  rw [hb]
  have hexp : E - ((Nat.log 2 k : Int) + E - 52) = ((52 - Nat.log 2 k : Nat) : Int) := by
    omega
  rw [mul_div_assoc, ← zpow_sub₀ (by norm_num), hexp, zpow_natCast]
  push_cast
  ring

/-! ### Signed rounding -/

theorem float64Round_zero : float64Round 0 = 0 := by simp [float64Round]

theorem float64Round_of_pos (x : ℚ) (hx : 0 < x) : float64Round x = float64RoundPos x := by
  unfold float64Round
  rw [if_neg hx.ne.symm, if_neg (not_lt.2 hx.le)]

theorem float64Round_nonneg (x : ℚ) (hx : 0 ≤ x) : 0 ≤ float64Round x := by
  rcases hx.eq_or_lt with h | h
  · rw [← h, float64Round_zero]
  · rw [float64Round_of_pos x h]
    exact (float64RoundPos_pos x h).le

theorem float64Round_nonpos (x : ℚ) (hx : x ≤ 0) : float64Round x ≤ 0 := by
  rcases hx.eq_or_lt with h | h
  · rw [h, float64Round_zero]
  · unfold float64Round
    rw [if_neg h.ne, if_pos h]
    have := float64RoundPos_pos (-x) (by linarith)
    linarith

/-- Rounding is monotone on the non-negative rationals. -/
theorem float64Round_mono (x y : ℚ) (hx : 0 ≤ x) (h : x ≤ y) :
    float64Round x ≤ float64Round y := by
  rcases hx.eq_or_lt with h0 | h0
  · rw [← h0, float64Round_zero]
    exact float64Round_nonneg y (hx.trans h)
  · rw [float64Round_of_pos x h0, float64Round_of_pos y (lt_of_lt_of_le h0 h)]
    exact float64RoundPos_mono x y h0 h

/-- Every `k * 2 ^ E` with `0 ≤ k < 2 ^ 53` is a float64. -/
theorem float64Round_mul_zpow (k : Nat) (E : Int) (hk : k < 2 ^ 53) :
    float64Round ((k : ℚ) * 2 ^ E) = (k : ℚ) * 2 ^ E := by
  rcases Nat.eq_zero_or_pos k with h0 | h0
  · subst h0
    simp [float64Round_zero]
  · have hx : (0 : ℚ) < (k : ℚ) * 2 ^ E := mul_pos (by exact_mod_cast h0) (two_zpow_pos E)
    rw [float64Round_of_pos _ hx]
    exact float64RoundPos_mul_zpow k E h0 hk

/-- Every natural number below `2 ^ 53` is a float64. -/
theorem float64Round_natCast (k : Nat) (hk : k < 2 ^ 53) : float64Round (k : ℚ) = k := by
  have := float64Round_mul_zpow k 0 hk
  simpa using this

/-- Rounding a positive rational below `2 ^ e` lowers it by at most `2 ^ (e - 54)`. -/
theorem float64Round_ge_sub (x : ℚ) (e : Int) (hx : 0 < x) (hlt : x < 2 ^ e) :
    x - 2 ^ (e - 54) ≤ float64Round x := by
  rw [float64Round_of_pos x hx]
  have hb : binade x - 53 ≤ e - 54 := by
    have := binade_lt_of_lt_zpow x e hx hlt
    omega
  have h1 := float64RoundPos_ge_sub x
  have h2 : (2 : ℚ) ^ (binade x - 53) ≤ 2 ^ (e - 54) := zpow_le_zpow_right₀ (by norm_num) hb
  linarith

/-! ### Hours of a duration -/

theorem hours_parts (d : Int) (hd : 0 ≤ d) :
    0 ≤ d.tdiv Hour ∧ 0 ≤ d.tmod Hour ∧ d.tmod Hour < Hour
    ∧ Hour * d.tdiv Hour + d.tmod Hour = d :=
  ⟨Int.tdiv_nonneg hd (by decide), Int.tmod_nonneg _ hd, Int.tmod_lt_of_pos _ (by decide),
    Int.tdiv_add_tmod d Hour⟩

/-- The exact hour count splits into whole hours and the fraction of an hour. -/
theorem exact_hours_split (d : Int) :
    (d : ℚ) / 3600000000000
      = ((d.tdiv Hour : Int) : ℚ) + ((d.tmod Hour : Int) : ℚ) / 3600000000000 := by
  have h := Int.tdiv_add_tmod d Hour
  have hq : (d : ℚ) = (Hour : ℚ) * ((d.tdiv Hour : Int) : ℚ) + ((d.tmod Hour : Int) : ℚ) := by
    exact_mod_cast h.symm
  have hH : (Hour : ℚ) = 3600000000000 := by norm_num [Hour]
  rw [hq, hH]
  field_simp
  ring

theorem durationHours_nonpos (d : Int) (hd : d ≤ 0) : durationHours d ≤ 0 := by
  obtain ⟨a, rfl⟩ : ∃ a, d = -a := ⟨-d, by ring⟩
  have ha : 0 ≤ a := by omega
  obtain ⟨h1, h2, _, _⟩ := hours_parts a ha
  have ht : (-a).tmod Hour = -(a.tmod Hour) := by
    rw [Int.tmod_def, Int.tmod_def, Int.neg_tdiv]
    ring
  unfold durationHours
  rw [Int.neg_tdiv, ht]
  apply float64Round_nonpos
  have hf : float64Round (((-(a.tmod Hour) : Int) : ℚ) / 3600000000000) ≤ 0 := by
    apply float64Round_nonpos
    apply div_nonpos_of_nonpos_of_nonneg _ (by norm_num)
    exact_mod_cast (by omega : -(a.tmod Hour) ≤ 0)
  have hh : ((-(a.tdiv Hour) : Int) : ℚ) ≤ 0 := by exact_mod_cast (by omega : -(a.tdiv Hour) ≤ 0)
  linarith

/-- The fraction of an hour, rounded, lies in `[0, 1]`. -/
theorem rounded_fraction_bounds (d : Int) (hd : 0 ≤ d) :
    0 ≤ ((d.tmod Hour : Int) : ℚ) / 3600000000000
    ∧ ((d.tmod Hour : Int) : ℚ) / 3600000000000 < 1
    ∧ 0 ≤ float64Round (((d.tmod Hour : Int) : ℚ) / 3600000000000)
    ∧ float64Round (((d.tmod Hour : Int) : ℚ) / 3600000000000) ≤ 1 := by
  obtain ⟨_, h2, h3, _⟩ := hours_parts d hd
  have hn0 : (0 : ℚ) ≤ ((d.tmod Hour : Int) : ℚ) := by exact_mod_cast h2
  have hn1 : ((d.tmod Hour : Int) : ℚ) < 3600000000000 := by
    have : d.tmod Hour < 3600000000000 := h3
    exact_mod_cast this
  have hf0 : 0 ≤ ((d.tmod Hour : Int) : ℚ) / 3600000000000 := div_nonneg hn0 (by norm_num)
  have hf1 : ((d.tmod Hour : Int) : ℚ) / 3600000000000 < 1 := by
    rw [div_lt_one (by norm_num)]
    exact hn1
  refine ⟨hf0, hf1, float64Round_nonneg _ hf0, ?_⟩
  have h1 := float64Round_mono _ 1 hf0 hf1.le
  have h11 : float64Round 1 = 1 := by
    have := float64Round_natCast 1 (by norm_num)
    simpa using this
  rwa [h11] at h1


/-- Soundness of the float64 hour count: for a positive duration that fits an
int64 and a float64 threshold, an exact hour count at or below the threshold
gives a float64 hour count at or below it. -/
theorem durationHours_le_of_exact_le (d : Int) (thr : ℚ) (hd : 0 < d)
    (hmax : d ≤ 9223372036854775807) (hfl : float64Round thr = thr)
    (hle : (d : ℚ) / 3600000000000 ≤ thr) : durationHours d ≤ thr := by
  obtain ⟨h1, h2, h3, h4⟩ := hours_parts d hd.le
  obtain ⟨hf0, hf1, hff0, hff1⟩ := rounded_fraction_bounds d hd.le
  have hsplit := exact_hours_split d
  rw [hsplit] at hle
  have hhq : (0 : ℚ) ≤ ((d.tdiv Hour : Int) : ℚ) := by exact_mod_cast h1
  have hdpos : (0 : ℚ) < (d : ℚ) / 3600000000000 :=
    div_pos (by exact_mod_cast hd) (by norm_num)
  have hthr : 0 < thr := by rw [hsplit] at hdpos; linarith
  -- it is enough to bound the sum before its rounding
  suffices hsum : ((d.tdiv Hour : Int) : ℚ)
      + float64Round (((d.tmod Hour : Int) : ℚ) / 3600000000000) ≤ thr by
    unfold durationHours
    have := float64Round_mono _ thr (by linarith) hsum
    rwa [hfl] at this
  by_cases hA : ((d.tdiv Hour : Int) : ℚ) + 1 ≤ thr
  · linarith
  · push_neg at hA
    -- the gap between the threshold and the whole hours is itself a float64
    suffices hg : float64Round (thr - ((d.tdiv Hour : Int) : ℚ))
        = thr - ((d.tdiv Hour : Int) : ℚ) by
      have := float64Round_mono _ (thr - ((d.tdiv Hour : Int) : ℚ)) hf0 (by linarith)
      rw [hg] at this
      linarith
    by_cases hz : d.tdiv Hour = 0
    · rw [hz]
      simpa using hfl
    · have hpos : 1 ≤ d.tdiv Hour := by omega
      have hbound : d.tdiv Hour ≤ 2562047 := by
        have h4q : 3600000000000 * d.tdiv Hour + d.tmod Hour = d := h4
        omega
      obtain ⟨n, hn1, hn2, hform⟩ := float64RoundPos_form thr hthr
      rw [← float64Round_of_pos thr hthr, hfl] at hform
      have hthr22 : thr < (2 : ℚ) ^ (22 : Int) := by
        have : ((d.tdiv Hour : Int) : ℚ) ≤ 2562047 := by exact_mod_cast hbound
        have h22 : (2 : ℚ) ^ (22 : Int) = 4194304 := by norm_num
        rw [h22]
        linarith
      have hb : binade thr < 22 := binade_lt_of_lt_zpow thr 22 hthr hthr22
      obtain ⟨q, hq⟩ : ∃ q : Nat, binade thr - 52 = -(q : Int) :=
        ⟨(52 - binade thr).toNat, by omega⟩
      have hone : (2 : ℚ) ^ q * 2 ^ (binade thr - 52) = 1 := by
        rw [hq, ← zpow_natCast, ← zpow_add₀ (by norm_num)]
        simp
      have hgap : thr - ((d.tdiv Hour : Int) : ℚ)
          = ((n - d.tdiv Hour * 2 ^ q : Int) : ℚ) * 2 ^ (binade thr - 52) := by
        push_cast
        rw [sub_mul, mul_assoc, hone, mul_one, ← hform]
      have hK0 : 0 ≤ n - d.tdiv Hour * 2 ^ q := by
        have hge : (0 : ℚ) ≤ thr - ((d.tdiv Hour : Int) : ℚ) := by linarith
        rw [hgap] at hge
        have := nonneg_of_mul_nonneg_left hge (two_zpow_pos (binade thr - 52))
        exact_mod_cast this
      have hK1 : n - d.tdiv Hour * 2 ^ q < 2 ^ 53 := by
        have : 0 < d.tdiv Hour * 2 ^ q := by positivity
        omega
      obtain ⟨k, hk⟩ : ∃ k : Nat, n - d.tdiv Hour * 2 ^ q = (k : Int) :=
        ⟨(n - d.tdiv Hour * 2 ^ q).toNat, by omega⟩
      have hk53 : k < 2 ^ 53 := by
        have : (k : Int) < 2 ^ 53 := by rw [← hk]; exact hK1
        exact_mod_cast this
      rw [hgap, hk]
      have := float64Round_mul_zpow k (binade thr - 52) hk53
      exact_mod_cast this

/-- Completeness up to rounding: a positive duration that fits an int64 and
whose exact hour count exceeds a non-negative threshold by two microseconds
or more has a float64 hour count above the threshold. -/
theorem lt_durationHours_of_margin (d : Int) (thr : ℚ) (hd : 0 < d)
    (hmax : d ≤ 9223372036854775807) (hthr : 0 ≤ thr)
    (hgap : thr + 2000 / 3600000000000 ≤ (d : ℚ) / 3600000000000) :
    thr < durationHours d := by
  obtain ⟨h1, h2, h3, h4⟩ := hours_parts d hd.le
  obtain ⟨hf0, hf1, hff0, hff1⟩ := rounded_fraction_bounds d hd.le
  rw [exact_hours_split d] at hgap
  have hhq : (0 : ℚ) ≤ ((d.tdiv Hour : Int) : ℚ) := by exact_mod_cast h1
  have hbound : d.tdiv Hour ≤ 2562047 := by
    have h4q : 3600000000000 * d.tdiv Hour + d.tmod Hour = d := h4
    omega
  have hbq : ((d.tdiv Hour : Int) : ℚ) ≤ 2562047 := by exact_mod_cast hbound
  have e54 : (2 : ℚ) ^ ((0 : Int) - 54) = 1 / 18014398509481984 := by
    rw [zero_sub, zpow_neg]
    norm_num
  have e32 : (2 : ℚ) ^ ((22 : Int) - 54) = 1 / 4294967296 := by
    have : (22 : Int) - 54 = -32 := by norm_num
    rw [this, zpow_neg]
    norm_num
  have hfrac : ((d.tmod Hour : Int) : ℚ) / 3600000000000 - 1 / 18014398509481984
      ≤ float64Round (((d.tmod Hour : Int) : ℚ) / 3600000000000) := by
    rcases hf0.eq_or_lt with h0 | h0
    · rw [← h0, float64Round_zero]
      norm_num
    · have := float64Round_ge_sub _ 0 h0 (by simpa using hf1)
      rwa [e54] at this
  have hy0 : (0 : ℚ) < ((d.tdiv Hour : Int) : ℚ)
      + float64Round (((d.tmod Hour : Int) : ℚ) / 3600000000000) := by
    have : (0 : ℚ) < 2000 / 3600000000000 - 1 / 18014398509481984 := by norm_num
    linarith
  have hy22 : ((d.tdiv Hour : Int) : ℚ)
      + float64Round (((d.tmod Hour : Int) : ℚ) / 3600000000000) < (2 : ℚ) ^ (22 : Int) := by
    have h22 : (2 : ℚ) ^ (22 : Int) = 4194304 := by norm_num
    rw [h22]
    linarith
  have hsum := float64Round_ge_sub _ 22 hy0 hy22
  rw [e32] at hsum
  unfold durationHours
  have : (0 : ℚ) < 2000 / 3600000000000 - 1 / 18014398509481984 - 1 / 4294967296 := by
    norm_num
  linarith

/-- Completeness on whole hours: a non-negative duration that fits an int64 and
holds at least `k` whole hours, `k` an integer above the threshold, has a
float64 hour count above the threshold. -/
theorem lt_durationHours_of_whole_hours (d k : Int) (thr : ℚ) (hd : 0 ≤ d)
    (hmax : d ≤ 9223372036854775807) (hk : (k : ℚ) ≤ (d : ℚ) / 3600000000000)
    (hlt : thr < (k : ℚ)) : thr < durationHours d := by
  obtain ⟨h1, h2, h3, h4⟩ := hours_parts d hd
  obtain ⟨hf0, hf1, hff0, hff1⟩ := rounded_fraction_bounds d hd
  have h4q : 3600000000000 * d.tdiv Hour + d.tmod Hour = d := h4
  have h3q : d.tmod Hour < 3600000000000 := h3
  have hbound : d.tdiv Hour ≤ 2562047 := by omega
  have hkd : k * 3600000000000 ≤ d := by
    rw [le_div_iff₀ (by norm_num)] at hk
    exact_mod_cast hk
  have hkh : k ≤ d.tdiv Hour := by omega
  have hhq : (0 : ℚ) ≤ ((d.tdiv Hour : Int) : ℚ) := by exact_mod_cast h1
  obtain ⟨m, hm⟩ : ∃ m : Nat, d.tdiv Hour = (m : Int) := ⟨(d.tdiv Hour).toNat, by omega⟩
  have hfix : float64Round ((d.tdiv Hour : Int) : ℚ) = ((d.tdiv Hour : Int) : ℚ) := by
    rw [hm]
    have := float64Round_natCast m (by omega)
    exact_mod_cast this
  have hmono := float64Round_mono ((d.tdiv Hour : Int) : ℚ)
    (((d.tdiv Hour : Int) : ℚ) + float64Round (((d.tmod Hour : Int) : ℚ) / 3600000000000))
    hhq (by linarith)
  rw [hfix] at hmono
  unfold durationHours
  have : (k : ℚ) ≤ ((d.tdiv Hour : Int) : ℚ) := by exact_mod_cast hkh
  linarith

/-! ## Lemmas on the loops -/

@[simp]
theorem Run.say_calls (r : Run) (l : UiLine) : (r.say l).calls = r.calls := rfl

@[simp]
theorem Run.say_ui (r : Run) (l : UiLine) : (r.say l).ui = r.ui ++ [l] := rfl

@[simp]
theorem Run.call_calls (r : Run) (k : Call) : (r.call k).calls = r.calls ++ [k] := rfl

@[simp]
theorem Run.call_ui (r : Run) (k : Call) : (r.call k).ui = r.ui := rfl

/-- With the clock held at `now`, the index loop appends to its accumulator
the snapshots from index `i` on whose age exceeds the threshold. -/
theorem filterSnapshotsByDateRangeLoop_fixed_clock {F : Type} [LinearOrder F] (Hours : Int → F)
    (now : Int) (snapshots : List Snapshot) (olderThanHours : F) :
    ∀ (n i : Nat) (acc : List Snapshot), i + n = snapshots.length →
      filterSnapshotsByDateRangeLoop Hours (fun _ => now) snapshots olderThanHours n i acc
        = acc ++ (snapshots.drop i).filter
            (fun s => decide (Hours (timeSub now s.StartTime) > olderThanHours)) := by
  intro n
  induction n with
  | zero =>
    intro i acc h
    have hi : snapshots.length ≤ i := by omega
    simp [filterSnapshotsByDateRangeLoop, List.drop_eq_nil_of_le hi]
  | succ n ih =>
    intro i acc h
    have hi : i < snapshots.length := by omega
    have hget : snapshots.get? i = some snapshots[i] := by
      simp [List.getElem?_eq_getElem hi]
    have hdrop : snapshots.drop i = snapshots[i] :: snapshots.drop (i + 1) :=
      List.drop_eq_getElem_cons hi
    rw [filterSnapshotsByDateRangeLoop, hget]
    simp only []
    by_cases hgt : Hours (timeSub now snapshots[i].StartTime) > olderThanHours
    · rw [if_pos hgt, ih (i + 1) _ (by omega), hdrop, List.filter_cons,
        if_pos (decide_eq_true hgt), List.append_assoc, List.singleton_append]
    · rw [if_neg hgt, ih (i + 1) _ (by omega), hdrop, List.filter_cons,
        if_neg (by simpa using hgt)]

/-- With the clock held at `now`, `filterSnapshotsByDateRange` returns no
error and the listed snapshots that pass the test of the loop, in order. -/
theorem filterSnapshotsByDateRange_fixed_clock {F : Type} [LinearOrder F]
    (Hours : Int → F) (now : Int) (snapshots : List Snapshot) (olderThanHours : F) :
    filterSnapshotsByDateRange Hours (fun _ => now) snapshots olderThanHours
      = (snapshots.filter
          (fun s => decide (Hours (timeSub now s.StartTime) > olderThanHours)), none) := by
  have hloop := filterSnapshotsByDateRangeLoop_fixed_clock Hours now snapshots olderThanHours
    snapshots.length 0 [] (by simp)
  simp [filterSnapshotsByDateRange, hloop]

/-- A snapshot that passes the float64 test is older than the threshold: for
a non-negative float64 threshold, a float64 hour count of `now.Sub(start)`
above the threshold needs an exact age above it. -/
theorem exact_age_gt_of_selected (now start : Int) (thr : ℚ) (hthr : 0 ≤ thr)
    (hfl : float64Round thr = thr) (h : thr < durationHours (timeSub now start)) :
    thr < ((now - start : Int) : ℚ) / 3600000000000 := by
  by_contra hnot
  push_neg at hnot
  unfold timeSub at h
  split_ifs at h with h1 h2
  · have := durationHours_nonpos minDuration (by decide)
    linarith
  · have hmaxle : ((maxDuration : Int) : ℚ) / 3600000000000 ≤ thr := by
      have : ((maxDuration : Int) : ℚ) ≤ ((now - start : Int) : ℚ) := by exact_mod_cast h2.le
      have := div_le_div_of_nonneg_right this (by norm_num : (0 : ℚ) ≤ 3600000000000)
      linarith
    have := durationHours_le_of_exact_le maxDuration thr (by decide) (by decide) hfl hmaxle
    linarith
  · rcases le_or_lt (now - start) 0 with h0 | h0
    · have := durationHours_nonpos (now - start) h0
      linarith
    · have hm : now - start ≤ 9223372036854775807 := by
        have : ¬ maxDuration < now - start := h2
        unfold maxDuration at this
        omega
      have := durationHours_le_of_exact_le (now - start) thr h0 hm hfl hnot
      linarith

/-- An age that fits a `Duration` is what `now.Sub(start)` returns. -/
theorem timeSub_of_fits (now start : Int) (h0 : 0 ≤ now - start)
    (hmax : now - start ≤ maxDuration) : timeSub now start = now - start := by
  unfold timeSub
  have h1 : ¬ now - start < minDuration := by
    unfold minDuration
    omega
  rw [if_neg h1, if_neg (not_lt.2 hmax)]

/-- C4, amended. With the current time fixed at `now` and a non-negative
float64 threshold, `filterSnapshotsByDateRange` returns no error and, in
listed order, the snapshots whose float64 hour count
`now.Sub(StartTime).Hours()` is strictly greater than the threshold. Measured
on the exact age `now - StartTime` in hours: every snapshot in the result is
listed and strictly older than the threshold, so a snapshot whose age equals
the threshold or lies below it is not in the result; and a listed snapshot
whose age fits a `Duration` is in the result when its age exceeds the
threshold by two microseconds or more, or holds at least `k` whole hours for
an integer `k` above the threshold. -/
theorem filterSnapshotsByDateRange_selects_older_up_to_rounding (now : Int)
    (snapshots : List Snapshot) (olderThanHours : ℚ) (hthr : 0 ≤ olderThanHours)
    (hfl : float64Round olderThanHours = olderThanHours) :
    (filterSnapshotsByDateRange durationHours (fun _ => now) snapshots olderThanHours).2 = none
    ∧ (filterSnapshotsByDateRange durationHours (fun _ => now) snapshots olderThanHours).1
        = snapshots.filter
            (fun s => decide (olderThanHours < durationHours (timeSub now s.StartTime)))
    ∧ (∀ s ∈ (filterSnapshotsByDateRange durationHours (fun _ => now) snapshots
          olderThanHours).1, s ∈ snapshots ∧ olderThanHours < ageHours now s)
    ∧ (∀ s, ageHours now s ≤ olderThanHours →
        s ∉ (filterSnapshotsByDateRange durationHours (fun _ => now) snapshots olderThanHours).1)
    ∧ (∀ s ∈ snapshots, now - s.StartTime ≤ maxDuration →
        olderThanHours + 2000 / 3600000000000 ≤ ageHours now s →
        s ∈ (filterSnapshotsByDateRange durationHours (fun _ => now) snapshots olderThanHours).1)
    ∧ (∀ s ∈ snapshots, ∀ k : Int, now - s.StartTime ≤ maxDuration →
        (k : ℚ) ≤ ageHours now s → olderThanHours < (k : ℚ) →
        s ∈ (filterSnapshotsByDateRange durationHours (fun _ => now) snapshots olderThanHours).1)
    := by
  rw [filterSnapshotsByDateRange_fixed_clock]
  have hsound : ∀ s ∈ snapshots.filter
      (fun s => decide (durationHours (timeSub now s.StartTime) > olderThanHours)),
      s ∈ snapshots ∧ olderThanHours < ageHours now s := by
    intro s hs
    rw [List.mem_filter] at hs
    exact ⟨hs.1, exact_age_gt_of_selected now s.StartTime olderThanHours hthr hfl
      (by simpa using hs.2)⟩
  refine ⟨rfl, rfl, hsound, ?_, ?_, ?_⟩
  · intro s hle hmem
    exact absurd (hsound s hmem).2 (not_lt.2 hle)
  · intro s hs hmax hgap
    have hpos : (0 : ℚ) < ageHours now s := by
      have : (0 : ℚ) < 2000 / 3600000000000 := by norm_num
      linarith
    have h0 : 0 < now - s.StartTime := by
      unfold ageHours at hpos
      have := (div_pos_iff_of_pos_right (by norm_num : (0 : ℚ) < 3600000000000)).1 hpos
      exact_mod_cast this
    have hm : now - s.StartTime ≤ 9223372036854775807 := hmax
    rw [List.mem_filter]
    refine ⟨hs, ?_⟩
    rw [timeSub_of_fits now s.StartTime h0.le hmax]
    simpa using lt_durationHours_of_margin (now - s.StartTime) olderThanHours h0 hm hthr hgap
  · intro s hs k hmax hk hlt
    have hpos : (0 : ℚ) < ageHours now s := by linarith
    have h0 : 0 < now - s.StartTime := by
      unfold ageHours at hpos
      have := (div_pos_iff_of_pos_right (by norm_num : (0 : ℚ) < 3600000000000)).1 hpos
      exact_mod_cast this
    have hm : now - s.StartTime ≤ 9223372036854775807 := hmax
    rw [List.mem_filter]
    refine ⟨hs, ?_⟩
    rw [timeSub_of_fits now s.StartTime h0.le hmax]
    simpa using lt_durationHours_of_whole_hours (now - s.StartTime) k olderThanHours h0.le hm
      hk hlt

/-- C4, amended, on the spec scenario with the clock at `0` and a threshold of
720 hours: the result is the three snapshots aged 35, 40 and 50 days, each
strictly older than 720 hours. -/
theorem filterSnapshotsByDateRange_selects_older_up_to_rounding_witness :
    (filterSnapshotsByDateRange durationHours (fun _ => 0) scenarioSnapshots 720).1
      = oldSnapshots
    ∧ (∀ s ∈ (filterSnapshotsByDateRange durationHours (fun _ => 0) scenarioSnapshots 720).1,
        s ∈ scenarioSnapshots ∧ (720 : ℚ) < ageHours 0 s) :=
  ⟨by decide!,
    (filterSnapshotsByDateRange_selects_older_up_to_rounding 0 scenarioSnapshots 720
      (by decide!) (by decide!)).2.2.1⟩

/-- C4, as stated, fails. With the clock at `0` and the float64 threshold
4800, a snapshot taken 4800 hours and one nanosecond ago has an age strictly
above the threshold, yet its float64 hour count is 4800 and it is not in the
result. -/
theorem age_one_nanosecond_above_threshold_is_not_selected :
    float64Round 4800 = 4800
    ∧ (4800 : ℚ) < ageHours 0 nearThresholdSnapshot
    ∧ durationHours (timeSub 0 nearThresholdSnapshot.StartTime) = 4800
    ∧ (filterSnapshotsByDateRange durationHours (fun _ => 0) [nearThresholdSnapshot] 4800).1
      = [] := by
  refine ⟨by decide!, by decide!, by decide!, by decide!⟩

/-- The delete loop adds `DeleteSnapshot` calls for an initial segment of the
batch, and nothing else. -/
theorem deleteVolumeSnapshotsLoop_calls (svc : EC2) (dryRun : Bool) :
    ∀ (snapshots : List Snapshot) (r : Run), ∃ m,
      (deleteVolumeSnapshotsLoop svc dryRun snapshots r).2.calls
        = r.calls ++ (snapshots.take m).map (deleteCallFor dryRun) := by
  intro snapshots
  induction snapshots with
  | nil => intro r; exact ⟨0, by simp [deleteVolumeSnapshotsLoop]⟩
  | cons a rest ih =>
    intro r
    rw [deleteVolumeSnapshotsLoop]
    simp only [Run.say_calls]
    cases hdel : svc.DeleteSnapshot r.calls dryRun a.SnapshotId with
    | some err => exact ⟨1, by simp [deleteCallFor]⟩
    | none =>
      obtain ⟨m, hm⟩ := ih ((r.say (UiLine.Output ("   Deleting snapshot " ++ a.SnapshotId
        ++ "..."))).call (Call.DeleteSnapshot dryRun a.SnapshotId))
      exact ⟨m + 1, by simp [hm, deleteCallFor]⟩

/-- If the deletes of the snapshots before index `j` succeed and the one at
index `j` fails with `e`, the loop returns `e` having issued the calls for
the snapshots up to and including index `j`. -/
theorem deleteVolumeSnapshotsLoop_first_failure (svc : EC2) (dryRun : Bool) (e : String) :
    ∀ (snapshots : List Snapshot) (r : Run) (j : Nat) (s : Snapshot),
      snapshots.get? j = some s →
      (∀ i x, i < j → snapshots.get? i = some x →
        svc.DeleteSnapshot (r.calls ++ (snapshots.take i).map (deleteCallFor dryRun))
          dryRun x.SnapshotId = none) →
      svc.DeleteSnapshot (r.calls ++ (snapshots.take j).map (deleteCallFor dryRun))
        dryRun s.SnapshotId = some e →
      (deleteVolumeSnapshotsLoop svc dryRun snapshots r).1 = some e
      ∧ (deleteVolumeSnapshotsLoop svc dryRun snapshots r).2.calls
        = r.calls ++ (snapshots.take (j + 1)).map (deleteCallFor dryRun) := by
  intro snapshots
  induction snapshots with
  | nil => intro r j s hj; simp at hj
  | cons a rest ih =>
    intro r j s hj hbefore hfail
    rw [deleteVolumeSnapshotsLoop]
    simp only [Run.say_calls]
    cases j with
    | zero =>
      simp only [List.get?_cons_zero, Option.some.injEq] at hj
      subst hj
      simp only [List.take_zero, List.map_nil, List.append_nil] at hfail
      rw [hfail]
      simp [deleteCallFor]
    | succ j =>
      have h0 := hbefore 0 a (Nat.succ_pos j) (by simp)
      simp only [List.take_zero, List.map_nil, List.append_nil] at h0
      rw [h0]
      simp only [List.get?_cons_succ] at hj
      have := ih ((r.say (UiLine.Output ("   Deleting snapshot " ++ a.SnapshotId
        ++ "..."))).call (Call.DeleteSnapshot dryRun a.SnapshotId)) j s hj
        (by
          intro i x hi hx
          have := hbefore (i + 1) x (by omega) (by simpa using hx)
          simpa [deleteCallFor] using this)
        (by simpa [deleteCallFor] using hfail)
      refine ⟨this.1, ?_⟩
      rw [this.2]
      simp [deleteCallFor]

/-- C7. When the deletes of the batch succeed up to index `j` and the
`DeleteSnapshot` call for the snapshot at index `j` fails with `e`,
`deleteVolumeSnapshots` returns `e` unchanged, and the calls it has issued are
the `DeleteSnapshot` calls for the snapshots at indices `0..j` in order: none
after the failing one, and no call that undoes an earlier deletion. -/
theorem deleteVolumeSnapshots_aborts_at_first_failure (svc : EC2) (dryRun : Bool)
    (snapshots : List Snapshot) (r : Run) (j : Nat) (s : Snapshot) (e : String)
    (hj : snapshots.get? j = some s)
    (hbefore : ∀ i x, i < j → snapshots.get? i = some x →
      svc.DeleteSnapshot (r.calls ++ (snapshots.take i).map (deleteCallFor dryRun))
        dryRun x.SnapshotId = none)
    (hfail : svc.DeleteSnapshot (r.calls ++ (snapshots.take j).map (deleteCallFor dryRun))
      dryRun s.SnapshotId = some e) :
    (deleteVolumeSnapshots svc snapshots dryRun r).1 = some e
    ∧ (deleteVolumeSnapshots svc snapshots dryRun r).2.calls
      = r.calls ++ (snapshots.take (j + 1)).map (deleteCallFor dryRun) := by
  have h := deleteVolumeSnapshotsLoop_first_failure svc dryRun e snapshots
    (r.say (UiLine.Output (" Found " ++ toString snapshots.length ++ " snapshot(s) to delete")))
    j s hj (by simpa using hbefore) (by simpa using hfail)
  rcases hloop : deleteVolumeSnapshotsLoop svc dryRun snapshots
    (r.say (UiLine.Output (" Found " ++ toString snapshots.length ++ " snapshot(s) to delete")))
    with ⟨err, r2⟩
  rw [hloop] at h
  simp only at h
  obtain ⟨h1, h2⟩ := h
  subst h1
  simp only [deleteVolumeSnapshots, hloop]
  exact ⟨trivial, by simpa using h2⟩


/-- The calls of `deleteVolumeSnapshots` are `DeleteSnapshot` calls for an
initial segment of the batch. -/
theorem deleteVolumeSnapshots_calls (svc : EC2) (dryRun : Bool) (snapshots : List Snapshot)
    (r : Run) : ∃ m, (deleteVolumeSnapshots svc snapshots dryRun r).2.calls
      = r.calls ++ (snapshots.take m).map (deleteCallFor dryRun) := by
  obtain ⟨m, hm⟩ := deleteVolumeSnapshotsLoop_calls svc dryRun snapshots
    (r.say (UiLine.Output (" Found " ++ toString snapshots.length ++ " snapshot(s) to delete")))
  refine ⟨m, ?_⟩
  rcases hloop : deleteVolumeSnapshotsLoop svc dryRun snapshots
    (r.say (UiLine.Output (" Found " ++ toString snapshots.length ++ " snapshot(s) to delete")))
    with ⟨err, r2⟩
  rw [hloop] at hm
  simp only [deleteVolumeSnapshots, hloop]
  cases err <;> simpa using hm

/-- The same, for a run given by its outcome. -/
theorem deleteVolumeSnapshots_calls_of_eq (svc : EC2) (dryRun : Bool) (snapshots : List Snapshot)
    (r : Run) (err : Option String) (r2 : Run)
    (h : deleteVolumeSnapshots svc snapshots dryRun r = (err, r2)) :
    ∃ m, r2.calls = r.calls ++ (snapshots.take m).map (deleteCallFor dryRun) := by
  obtain ⟨m, hm⟩ := deleteVolumeSnapshots_calls svc dryRun snapshots r
  rw [h] at hm
  exact ⟨m, hm⟩

/-- The dry-run warning is printed, not sent: it leaves the calls as they are. -/
theorem dryRunWarning_calls (dryRun : Bool) (r : Run) (l : UiLine) :
    (if dryRun = true then r.say l else r).calls = r.calls := by
  split <;> rfl

/-- Every run of `deleteVolumeSnapshotSnapshots` issues nothing, or one
`DescribeSnapshots` call filtered on the volume followed by `DeleteSnapshot`
calls that carry the request's `DryRun` flag. -/
theorem deleteVolumeSnapshotSnapshots_calls {F : Type} [LinearOrder F] (Hours : Int → F)
    (parse : String → Except String F) (svc : EC2) (clock : Nat → Int)
    (c : DeleteVolumeSnapshotCommand) (r : Run) :
    (deleteVolumeSnapshotSnapshots Hours parse svc clock c r).2.calls = r.calls
    ∨ ∃ snapshots : List Snapshot,
        (deleteVolumeSnapshotSnapshots Hours parse svc clock c r).2.calls
          = r.calls ++ Call.DescribeSnapshots (DescribeSnapshotsInput.volumeIdFilter c.VolumeId)
              :: snapshots.map (deleteCallFor c.DryRun) := by
  unfold deleteVolumeSnapshotSnapshots
  split
  · exact Or.inl rfl
  · right
    simp only [Run.say_calls, dryRunWarning_calls]
    split
    · exact ⟨[], by simp [dryRunWarning_calls]⟩
    · split
      · exact ⟨[], by simp [dryRunWarning_calls]⟩
      · split
        · exact ⟨[], by simp [dryRunWarning_calls]⟩
        · split
          · exact ⟨[], by simp [dryRunWarning_calls]⟩
          · split
            · exact ⟨[], by simp [dryRunWarning_calls]⟩
            · split
              · exact ⟨[], by simp [dryRunWarning_calls]⟩
              · rename_i snapshots _ _ _ _ _ _ _ _ _ _
                split
                · rename_i heq
                  obtain ⟨m, hm⟩ := deleteVolumeSnapshots_calls_of_eq svc c.DryRun snapshots _ _ _ heq
                  exact ⟨snapshots.take m, by simp [hm, dryRunWarning_calls]⟩
                · rename_i heq
                  obtain ⟨m, hm⟩ := deleteVolumeSnapshots_calls_of_eq svc c.DryRun snapshots _ _ _ heq
                  refine ⟨snapshots.take m, ?_⟩
                  split <;> simp [hm, dryRunWarning_calls]


/-- C3. For a request that passes validation, when the listing succeeds with
no snapshot at all, or with at most `RequireAtLeast` snapshots,
`deleteVolumeSnapshotSnapshots` returns no error and the only provider call of
the run is the listing: no `DeleteSnapshot` call is issued, whatever the
snapshots, the clock, the threshold string and its parser are. -/
theorem deleteVolumeSnapshotSnapshots_no_action_at_or_below_floor {F : Type} [LinearOrder F]
    (Hours : Int → F) (parse : String → Except String F) (svc : EC2) (clock : Nat → Int)
    (c : DeleteVolumeSnapshotCommand) (r : Run) (snapshots : List Snapshot)
    (hvalid : validateDeleteVolumeSnapshotsArgs c = none)
    (hlist : svc.DescribeSnapshots r.calls (DescribeSnapshotsInput.volumeIdFilter c.VolumeId)
      = Except.ok snapshots)
    (hfew : snapshots.length = 0 ∨ (snapshots.length : Int) ≤ c.RequireAtLeast) :
    (deleteVolumeSnapshotSnapshots Hours parse svc clock c r).1 = none
    ∧ (deleteVolumeSnapshotSnapshots Hours parse svc clock c r).2.calls
      = r.calls ++ [Call.DescribeSnapshots (DescribeSnapshotsInput.volumeIdFilter c.VolumeId)] := by
  refine ⟨?_, ?_⟩
  · simp only [deleteVolumeSnapshotSnapshots, hvalid, Run.say_calls, dryRunWarning_calls, hlist]
    by_cases h0 : snapshots.length = 0
    · simp [h0]
    · have hle : (snapshots.length : Int) ≤ c.RequireAtLeast := hfew.resolve_left h0
      simp [h0, hle]
  · simp only [deleteVolumeSnapshotSnapshots, hvalid, Run.say_calls, dryRunWarning_calls, hlist]
    by_cases h0 : snapshots.length = 0
    · simp [h0, dryRunWarning_calls]
    · have hle : (snapshots.length : Int) ≤ c.RequireAtLeast := hfew.resolve_left h0
      simp [h0, hle, dryRunWarning_calls]

/-- C3 on the spec scenario with `--require-at-least 5`: five snapshots, none deleted. -/
theorem deleteVolumeSnapshotSnapshots_no_action_at_or_below_floor_witness :
    (deleteVolumeSnapshotSnapshots durationHours parseOlderThanToHours
        (staticProvider scenarioSnapshots) (fun _ => 0) floorCommand Run.start).1 = none
    ∧ (deleteVolumeSnapshotSnapshots durationHours parseOlderThanToHours
        (staticProvider scenarioSnapshots) (fun _ => 0) floorCommand Run.start).2.calls
      = Run.start.calls
        ++ [Call.DescribeSnapshots (DescribeSnapshotsInput.volumeIdFilter floorCommand.VolumeId)] :=
  deleteVolumeSnapshotSnapshots_no_action_at_or_below_floor durationHours parseOlderThanToHours
    (staticProvider scenarioSnapshots) (fun _ => 0) floorCommand Run.start scenarioSnapshots
    (by decide) rfl (Or.inr (by decide))


/-- C5. With `DryRun = true`, `createVolumeSnapshot` returns whatever the
tick budget is, and every `CreateSnapshot` or `DeleteSnapshot` call that it or
`deleteVolumeSnapshotSnapshots` adds to the run carries `DryRun = true`. -/
theorem dry_run_mutating_calls_carry_dry_run {F : Type} [LinearOrder F] (Hours : Int → F)
    (parse : String → Except String F) (svc : EC2) (clock : Nat → Int) (timestamp : String)
    (ticks : Nat) (cc : CreateVolumeSnapshotCommand) (dc : DeleteVolumeSnapshotCommand)
    (r : Run) (hcreate : cc.DryRun = true) (hdelete : dc.DryRun = true) :
    (∃ res r2 new, createVolumeSnapshot svc timestamp ticks cc r = some (res, r2)
        ∧ r2.calls = r.calls ++ new
        ∧ ∀ k ∈ new, k.mutating = true → k.dryRun = some true)
    ∧ (∃ new, (deleteVolumeSnapshotSnapshots Hours parse svc clock dc r).2.calls = r.calls ++ new
        ∧ ∀ k ∈ new, k.mutating = true → k.dryRun = some true) := by
  constructor
  · unfold createVolumeSnapshot
    simp only [hcreate, Run.say_calls]
    split
    · exact ⟨_, _, [], rfl, by simp, by simp⟩
    · split
      · split
        · exact ⟨_, _, [Call.CreateSnapshot cc.VolumeId true
            ("Automated snapshot by ec2-snapper at " ++ timestamp)], rfl, by simp,
            by simp [Call.dryRun]⟩
        · exact ⟨_, _, [Call.CreateSnapshot cc.VolumeId true
            ("Automated snapshot by ec2-snapper at " ++ timestamp)], rfl, by simp,
            by simp [Call.dryRun]⟩
      · exact ⟨_, _, [Call.CreateSnapshot cc.VolumeId true
            ("Automated snapshot by ec2-snapper at " ++ timestamp)], rfl, by simp,
          by simp [Call.dryRun]⟩
  · rcases deleteVolumeSnapshotSnapshots_calls Hours parse svc clock dc r with h | ⟨snaps, h⟩
    · exact ⟨[], by simp [h], by simp⟩
    · refine ⟨_, h, ?_⟩
      intro k hk hmut
      simp only [List.mem_cons, List.mem_map] at hk
      rcases hk with rfl | ⟨s, _, rfl⟩
      · simp [Call.mutating] at hmut
      · simp [deleteCallFor, Call.dryRun, hdelete]

/-- C5 on a dry-run create and a dry-run delete over the scenario snapshots. -/
theorem dry_run_mutating_calls_carry_dry_run_witness :
    dryRunCreateCommand.DryRun = true ∧ dryRunDeleteCommand.DryRun = true
    ∧ (∃ res r2 new, createVolumeSnapshot (staticProvider scenarioSnapshots) "now" 0
          dryRunCreateCommand Run.start = some (res, r2)
        ∧ r2.calls = Run.start.calls ++ new
        ∧ ∀ k ∈ new, k.mutating = true → k.dryRun = some true)
    ∧ (∃ new, (deleteVolumeSnapshotSnapshots durationHours parseOlderThanToHours
          (staticProvider scenarioSnapshots) (fun _ => 0) dryRunDeleteCommand Run.start).2.calls
          = Run.start.calls ++ new
        ∧ ∀ k ∈ new, k.mutating = true → k.dryRun = some true) :=
  ⟨rfl, rfl, dry_run_mutating_calls_carry_dry_run durationHours parseOlderThanToHours
    (staticProvider scenarioSnapshots) (fun _ => 0) "now" 0 dryRunCreateCommand
    dryRunDeleteCommand Run.start rfl rfl⟩

/-- C6, as stated, fails: for the valid request with `--older-than soon`, a
string the threshold parser rejects, on a volume without snapshots the run
issues the `DescribeSnapshots` call and returns no error. -/
theorem unparsable_threshold_passes_validation_and_lists :
    unparsableCommand.OlderThan ≠ ""
    ∧ (∃ e, parseOlderThanToHours unparsableCommand.OlderThan = Except.error e)
    ∧ (deleteVolumeSnapshotSnapshots durationHours parseOlderThanToHours (staticProvider [])
        (fun _ => 0) unparsableCommand Run.start).1 = none
    ∧ (deleteVolumeSnapshotSnapshots durationHours parseOlderThanToHours (staticProvider [])
        (fun _ => 0) unparsableCommand Run.start).2.calls
      = [Call.DescribeSnapshots (DescribeSnapshotsInput.volumeIdFilter "vol-1")] := by
  refine ⟨by decide, ⟨_, rfl⟩, by decide!, by decide!⟩

/-- C6, amended. For a request that passes validation and whose threshold
string the parser rejects with `e`, the run issues exactly one provider call,
the listing, and no `DeleteSnapshot` call. It returns the listing's error when
the listing fails, no error when at most `RequireAtLeast` snapshots are
listed, and `e` when more are. -/
theorem unparsable_threshold_fails_after_listing_above_floor {F : Type} [LinearOrder F]
    (Hours : Int → F) (parse : String → Except String F) (svc : EC2) (clock : Nat → Int)
    (c : DeleteVolumeSnapshotCommand) (r : Run) (e : String)
    (hvalid : validateDeleteVolumeSnapshotsArgs c = none)
    (hparse : parse c.OlderThan = Except.error e) :
    (deleteVolumeSnapshotSnapshots Hours parse svc clock c r).2.calls
      = r.calls ++ [Call.DescribeSnapshots (DescribeSnapshotsInput.volumeIdFilter c.VolumeId)]
    ∧ (deleteVolumeSnapshotSnapshots Hours parse svc clock c r).1
      = (match svc.DescribeSnapshots r.calls (DescribeSnapshotsInput.volumeIdFilter c.VolumeId) with
        | Except.error listErr => some listErr
        | Except.ok snapshots =>
          if (snapshots.length : Int) ≤ c.RequireAtLeast then none else some e) := by
  have hreq : 0 ≤ c.RequireAtLeast := by
    unfold validateDeleteVolumeSnapshotsArgs at hvalid
    split_ifs at hvalid
    omega
  simp only [deleteVolumeSnapshotSnapshots, hvalid, Run.say_calls, dryRunWarning_calls, hparse]
  cases hlist : svc.DescribeSnapshots r.calls (DescribeSnapshotsInput.volumeIdFilter c.VolumeId) with
  | error listErr => simp [dryRunWarning_calls]
  | ok snapshots =>
    by_cases h0 : snapshots.length = 0
    · have : (snapshots.length : Int) ≤ c.RequireAtLeast := by omega
      simp [h0, dryRunWarning_calls, hreq]
    · by_cases hle : (snapshots.length : Int) ≤ c.RequireAtLeast
      · simp [h0, hle, dryRunWarning_calls]
      · simp [h0, hle, dryRunWarning_calls]

/-- C6, amended, on the scenario snapshots with `--older-than soon`. -/
theorem unparsable_threshold_fails_after_listing_above_floor_witness :
    (deleteVolumeSnapshotSnapshots durationHours parseOlderThanToHours
        (staticProvider scenarioSnapshots) (fun _ => 0) unparsableCommand Run.start).2.calls
      = Run.start.calls
        ++ [Call.DescribeSnapshots (DescribeSnapshotsInput.volumeIdFilter unparsableCommand.VolumeId)]
    ∧ (deleteVolumeSnapshotSnapshots durationHours parseOlderThanToHours
        (staticProvider scenarioSnapshots) (fun _ => 0) unparsableCommand Run.start).1
      = (match (staticProvider scenarioSnapshots).DescribeSnapshots Run.start.calls
            (DescribeSnapshotsInput.volumeIdFilter unparsableCommand.VolumeId) with
        | Except.error listErr => some listErr
        | Except.ok snapshots =>
          if (snapshots.length : Int) ≤ unparsableCommand.RequireAtLeast then none
          else some "ERROR: unrecognised --older-than value soon") :=
  unparsable_threshold_fails_after_listing_above_floor durationHours parseOlderThanToHours
    (staticProvider scenarioSnapshots) (fun _ => 0) unparsableCommand Run.start
    "ERROR: unrecognised --older-than value soon" (by decide) rfl

/-- C1 fails on the code. In the spec scenario (ages 10, 20, 35, 40 and 50
days, `--older-than 30d --require-at-least 2`, every delete succeeding) the
candidates are the three snapshots aged 35, 40 and 50 days, yet the run issues
five `DeleteSnapshot` calls, one for every listed snapshot. -/
theorem scenario_deletes_every_listed_snapshot :
    (filterSnapshotsByDateRange durationHours (fun _ => 0) scenarioSnapshots 720).1 = oldSnapshots
    ∧ (deleteVolumeSnapshotSnapshots durationHours parseOlderThanToHours
        (staticProvider scenarioSnapshots) (fun _ => 0) scenarioCommand Run.start).1 = none
    ∧ (deleteVolumeSnapshotSnapshots durationHours parseOlderThanToHours
        (staticProvider scenarioSnapshots) (fun _ => 0) scenarioCommand Run.start).2.calls
      = [Call.DescribeSnapshots (DescribeSnapshotsInput.volumeIdFilter "vol-1"),
         Call.DeleteSnapshot false "snap-10", Call.DeleteSnapshot false "snap-20",
         Call.DeleteSnapshot false "snap-35", Call.DeleteSnapshot false "snap-40",
         Call.DeleteSnapshot false "snap-50"] := by
  refine ⟨by decide!, by decide!, by decide!⟩

/-- C2 fails on the code. With three snapshots aged 35, 40 and 50 days,
`--older-than 30d` and `--require-at-least 2`, the run issues three
`DeleteSnapshot` calls: none of the three snapshots is left, fewer than the
two that were to remain. -/
theorem floor_not_kept_when_all_snapshots_are_old :
    deleteCalls (deleteVolumeSnapshotSnapshots durationHours parseOlderThanToHours
        (staticProvider oldSnapshots) (fun _ => 0) scenarioCommand Run.start).2.calls
      = [Call.DeleteSnapshot false "snap-35", Call.DeleteSnapshot false "snap-40",
         Call.DeleteSnapshot false "snap-50"]
    ∧ (oldSnapshots.length : Int)
        - (deleteCalls (deleteVolumeSnapshotSnapshots durationHours parseOlderThanToHours
            (staticProvider oldSnapshots) (fun _ => 0) scenarioCommand Run.start).2.calls).length
      < min (oldSnapshots.length : Int) scenarioCommand.RequireAtLeast := by
  refine ⟨by decide!, by decide!⟩

/-- The fixed no-credentials message does not itself carry the signature. -/
theorem errNoCredentials_has_no_signature :
    strings.Contains errNoCredentials "NoCredentialProviders" = false := by decide

/-- C9. When the provider's `CreateSnapshot` call fails with `err`:
if `err` contains `NoCredentialProviders`, `createVolumeSnapshot` returns the
fixed no-credentials error, which differs from `err`; otherwise it returns
`err` unchanged. Either way it returns for every tick budget, with an empty
snapshot id, and the `CreateSnapshot` call is the only provider call of the
run. -/
theorem createVolumeSnapshot_create_error (svc : EC2) (timestamp : String) (ticks : Nat)
    (c : CreateVolumeSnapshotCommand) (r : Run) (err : String)
    (hvalid : validateCreateVolumeSnapshotArgs c = none)
    (hcreate : svc.CreateSnapshot r.calls c.VolumeId c.DryRun
      ("Automated snapshot by ec2-snapper at " ++ timestamp) = Except.error err) :
    (strings.Contains err "NoCredentialProviders" = true →
      errNoCredentials ≠ err
      ∧ createVolumeSnapshot svc timestamp ticks c r
        = some (("", some errNoCredentials),
            { calls := r.calls ++ [createSnapshotCall c timestamp],
              ui := r.ui ++ [UiLine.Output ("==> Creating Snapshot for " ++ c.VolumeId ++ "...")] }))
    ∧ (strings.Contains err "NoCredentialProviders" = false →
      createVolumeSnapshot svc timestamp ticks c r
        = some (("", some err),
            { calls := r.calls ++ [createSnapshotCall c timestamp],
              ui := r.ui ++ [UiLine.Output ("==> Creating Snapshot for " ++ c.VolumeId ++ "...")] })) := by
  constructor
  · intro hsig
    constructor
    · intro heq
      rw [← heq, errNoCredentials_has_no_signature] at hsig
      exact Bool.false_ne_true hsig
    · simp [createVolumeSnapshot, hvalid, hcreate, hsig, Run.call, Run.say, createSnapshotCall]
  · intro hsig
    simp [createVolumeSnapshot, hvalid, hcreate, hsig, Run.call, Run.say, createSnapshotCall]

/-- C10. For a request with `DryRun = false` whose `CreateSnapshot` call
succeeds with id `snapshotId` and whose first status fetch finds the snapshot
in state `error`, `createVolumeSnapshot` returns the snapshot id with the
fixed error-state error, for every tick budget and whether or not `Wait` is
set; the run has issued the `CreateSnapshot` call and that one status fetch,
and nothing after them. -/
theorem createVolumeSnapshot_error_state_is_terminal (svc : EC2) (timestamp : String)
    (ticks : Nat) (c : CreateVolumeSnapshotCommand) (r : Run) (snapshotId : String)
    (s : Snapshot) (rest : List Snapshot)
    (hvalid : validateCreateVolumeSnapshotArgs c = none)
    (hdry : c.DryRun = false)
    (hcreate : svc.CreateSnapshot r.calls c.VolumeId c.DryRun
      ("Automated snapshot by ec2-snapper at " ++ timestamp) = Except.ok snapshotId)
    (hfetch : svc.DescribeSnapshots (r.calls ++ [createSnapshotCall c timestamp])
      (DescribeSnapshotsInput.snapshotIds [snapshotId]) = Except.ok (s :: rest))
    (hstate : s.State = SnapshotStateError) :
    createVolumeSnapshot svc timestamp ticks c r
      = some ((snapshotId, some errSnapshotStateError),
          { calls := r.calls ++ [createSnapshotCall c timestamp, getSnapshotCall snapshotId],
            ui := r.ui ++ [UiLine.Output ("==> Creating Snapshot for " ++ c.VolumeId ++ "..."),
              UiLine.Output ("      State " ++ s.State)] }) := by
  simp only [createSnapshotCall] at hfetch
  rw [hdry] at hfetch hcreate
  simp [createVolumeSnapshot, hvalid, hcreate, hdry, getSnapshot, Run.call, Run.say,
    createSnapshotCall, getSnapshotCall, hstate, hfetch]


/-- If the next `k` polls succeed, `poll i` being the snapshot the poll after
`i` earlier ones returns, and the last of them is the first to report
`completed`, then on a budget of at least `k` ticks the wait loop leaves
through `break OUT` after exactly `k` polls, having printed one progress line
per poll and the final state. -/
theorem createVolumeSnapshotWaitLoop_completes (svc : EC2) (snapshotId : String) :
    ∀ (ticks k : Nat) (r : Run) (poll : Nat → Snapshot),
      1 ≤ k → k ≤ ticks →
      (∀ i, i < k → ∃ rest,
        svc.DescribeSnapshots (r.calls ++ List.replicate i (getSnapshotCall snapshotId))
          (DescribeSnapshotsInput.snapshotIds [snapshotId]) = Except.ok (poll i :: rest)) →
      (∀ i, i < k → ((poll i).State = SnapshotStateCompleted ↔ i + 1 = k)) →
      createVolumeSnapshotWaitLoop svc snapshotId ticks r
        = some (none,
            { calls := r.calls ++ List.replicate k (getSnapshotCall snapshotId),
              ui := r.ui
                ++ (List.range k).map (fun i => UiLine.Output ("      Progress " ++ (poll i).Progress))
                ++ [UiLine.Output ("      State " ++ SnapshotStateCompleted)] }) := by
  intro ticks
  induction ticks with
  | zero => intro k r poll h1 h2; omega
  | succ t ih =>
    intro k r poll h1 h2 hpoll hstate
    obtain ⟨k, rfl⟩ : ∃ k0, k = k0 + 1 := ⟨k - 1, by omega⟩
    obtain ⟨rest0, h0⟩ := hpoll 0 (by omega)
    simp only [List.replicate_zero, List.append_nil] at h0
    rw [createVolumeSnapshotWaitLoop]
    simp only [getSnapshot, h0]
    cases k with
    | zero =>
      have hc : (poll 0).State = SnapshotStateCompleted := (hstate 0 (by omega)).2 rfl
      simp [hc, Run.say, Run.call, getSnapshotCall, List.range_succ]
    | succ k =>
      have hc : ¬ (poll 0).State = SnapshotStateCompleted := by
        intro h
        have := (hstate 0 (by omega)).1 h
        omega
      rw [if_neg hc]
      have := ih (k + 1)
        ((r.call (Call.DescribeSnapshots (DescribeSnapshotsInput.snapshotIds [snapshotId]))).say
          (UiLine.Output ("      Progress " ++ (poll 0).Progress)))
        (fun i => poll (i + 1)) (by omega) (by omega)
        (by
          intro i hi
          obtain ⟨rest, hr⟩ := hpoll (i + 1) (by omega)
          refine ⟨rest, ?_⟩
          simpa [List.replicate_succ, getSnapshotCall] using hr)
        (by
          intro i hi
          exact (hstate (i + 1) (by omega)).trans (by constructor <;> intro h <;> omega))
      rw [this]
      simp [List.replicate_succ, List.range_succ_eq_map, getSnapshotCall, Run.say, Run.call,
        Function.comp_def]


/-- C8. For a valid request with `DryRun = false` and `Wait = true`, whose
`CreateSnapshot` call succeeds with `snapshotId` and whose first status fetch
succeeds in a state other than `error`: if polls `1..k` of the wait loop all
succeed, `poll i` being the snapshot poll `i` returns, and poll `k` is the
first to report `completed` (`1 ≤ k`), then on any budget of at least `k`
ticks `createVolumeSnapshot` returns `snapshotId` with no error; after the
`CreateSnapshot` call and the first fetch it has polled exactly `k` times,
and it has printed one progress line per poll, then the final state and the
success line. -/
theorem createVolumeSnapshot_wait_polls_until_completed (svc : EC2) (timestamp : String)
    (ticks : Nat) (c : CreateVolumeSnapshotCommand) (r : Run) (snapshotId : String)
    (s0 : Snapshot) (rest0 : List Snapshot) (k : Nat) (poll : Nat → Snapshot)
    (hvalid : validateCreateVolumeSnapshotArgs c = none)
    (hdry : c.DryRun = false) (hwait : c.Wait = true)
    (hcreate : svc.CreateSnapshot r.calls c.VolumeId c.DryRun
      ("Automated snapshot by ec2-snapper at " ++ timestamp) = Except.ok snapshotId)
    (hfetch : svc.DescribeSnapshots (r.calls ++ [createSnapshotCall c timestamp])
      (DescribeSnapshotsInput.snapshotIds [snapshotId]) = Except.ok (s0 :: rest0))
    (hstate0 : s0.State ≠ SnapshotStateError)
    (hk : 1 ≤ k) (hticks : k ≤ ticks)
    (hpoll : ∀ i, 1 ≤ i → i ≤ k → ∃ rest,
      svc.DescribeSnapshots
        (r.calls ++ [createSnapshotCall c timestamp, getSnapshotCall snapshotId]
          ++ List.replicate (i - 1) (getSnapshotCall snapshotId))
        (DescribeSnapshotsInput.snapshotIds [snapshotId]) = Except.ok (poll i :: rest))
    (hfirst : ∀ i, 1 ≤ i → i ≤ k → ((poll i).State = SnapshotStateCompleted ↔ i = k)) :
    createVolumeSnapshot svc timestamp ticks c r
      = some ((snapshotId, none),
          { calls := r.calls ++ [createSnapshotCall c timestamp, getSnapshotCall snapshotId]
              ++ List.replicate k (getSnapshotCall snapshotId),
            ui := r.ui
              ++ [UiLine.Output ("==> Creating Snapshot for " ++ c.VolumeId ++ "..."),
                  UiLine.Output ("      State " ++ s0.State)]
              ++ (List.range k).map
                  (fun i => UiLine.Output ("      Progress " ++ (poll (i + 1)).Progress))
              ++ [UiLine.Output ("      State " ++ SnapshotStateCompleted),
                  UiLine.Info ("==> Success! Created " ++ snapshotId)] }) := by
  simp only [createSnapshotCall] at hfetch hpoll
  rw [hdry] at hfetch hcreate hpoll
  have hloop := createVolumeSnapshotWaitLoop_completes svc snapshotId ticks k
    { calls := r.calls ++ [Call.CreateSnapshot c.VolumeId false
          ("Automated snapshot by ec2-snapper at " ++ timestamp), getSnapshotCall snapshotId],
      ui := r.ui ++ [UiLine.Output ("==> Creating Snapshot for " ++ c.VolumeId ++ "..."),
          UiLine.Output ("      State " ++ s0.State)] }
    (fun i => poll (i + 1)) hk hticks
    (by
      intro i hi
      obtain ⟨rest, hr⟩ := hpoll (i + 1) (by omega) (by omega)
      exact ⟨rest, by simpa using hr⟩)
    (by
      intro i hi
      exact (hfirst (i + 1) (by omega) (by omega)))
  simp [createVolumeSnapshot, hvalid, hcreate, hdry, hwait, getSnapshot, Run.call, Run.say,
    createSnapshotCall, getSnapshotCall, hstate0, hfetch]
  simp only [getSnapshotCall] at hloop
  simp [hloop]

/-- C7 on the scenario batch, with a provider that refuses the second delete. -/
theorem deleteVolumeSnapshots_aborts_at_first_failure_witness :
    (deleteVolumeSnapshots refusingProvider scenarioSnapshots false Run.start).1
      = some "InvalidSnapshot.InUse: snap-20 is in use"
    ∧ (deleteVolumeSnapshots refusingProvider scenarioSnapshots false Run.start).2.calls
      = Run.start.calls ++ (scenarioSnapshots.take (1 + 1)).map (deleteCallFor false) :=
  deleteVolumeSnapshots_aborts_at_first_failure refusingProvider false scenarioSnapshots
    Run.start 1 (snapshotAged "snap-20" 20) "InvalidSnapshot.InUse: snap-20 is in use" rfl
    (by
      intro i x hi hx
      obtain rfl : i = 0 := by omega
      simp only [scenarioSnapshots, List.get?_cons_zero, Option.some.injEq] at hx
      subst hx
      rfl)
    rfl

/-- C8 on the states pending, pending, completed: three polls, three progress lines. -/
theorem createVolumeSnapshot_wait_polls_until_completed_witness :
    createVolumeSnapshot pollingProvider "now" 3 waitCommand Run.start
      = some (("snap-new", none),
          { calls := [Call.CreateSnapshot "vol-1" false "Automated snapshot by ec2-snapper at now",
              getSnapshotCall "snap-new", getSnapshotCall "snap-new", getSnapshotCall "snap-new",
              getSnapshotCall "snap-new"],
            ui := [UiLine.Output "==> Creating Snapshot for vol-1...",
              UiLine.Output "      State pending",
              UiLine.Output "      Progress 10%",
              UiLine.Output "      Progress 55%",
              UiLine.Output "      Progress 100%",
              UiLine.Output "      State completed",
              UiLine.Info "==> Success! Created snap-new"] }) :=
  createVolumeSnapshot_wait_polls_until_completed pollingProvider "now" 3 waitCommand Run.start
    "snap-new" (newSnapshot "pending" "0%") [] 3 (fun i => statusAfter (i + 1))
    rfl rfl rfl rfl rfl (by decide) (by decide) (by decide)
    (by
      intro i h1 h2
      interval_cases i <;> exact ⟨[], rfl⟩)
    (by
      intro i h1 h2
      interval_cases i <;> decide)

/-- C9 on a provider without credentials. -/
theorem createVolumeSnapshot_create_error_witness :
    errNoCredentials ≠ "NoCredentialProviders: no valid providers in chain. Deprecated."
    ∧ createVolumeSnapshot noCredentialsProvider "now" 0 waitCommand Run.start
      = some (("", some errNoCredentials),
          { calls := Run.start.calls ++ [createSnapshotCall waitCommand "now"],
            ui := Run.start.ui
              ++ [UiLine.Output ("==> Creating Snapshot for " ++ waitCommand.VolumeId ++ "...")] }) :=
  (createVolumeSnapshot_create_error noCredentialsProvider "now" 0 waitCommand Run.start
    "NoCredentialProviders: no valid providers in chain. Deprecated." rfl rfl).1 (by decide)

/-- C10 on a provider that reports the new snapshot in state `error`, with `Wait` set. -/
theorem createVolumeSnapshot_error_state_is_terminal_witness :
    createVolumeSnapshot erroredProvider "now" 0 waitCommand Run.start
      = some (("snap-new", some errSnapshotStateError),
          { calls := Run.start.calls
              ++ [createSnapshotCall waitCommand "now", getSnapshotCall "snap-new"],
            ui := Run.start.ui
              ++ [UiLine.Output ("==> Creating Snapshot for " ++ waitCommand.VolumeId ++ "..."),
                UiLine.Output ("      State " ++ (newSnapshot "error" "0%").State)] }) :=
  createVolumeSnapshot_error_state_is_terminal erroredProvider "now" 0 waitCommand Run.start
    "snap-new" (newSnapshot "error" "0%") [] rfl rfl rfl rfl rfl

end Ec2Snapper
